import Mathlib

/-!
# go-simplelogger: a shallow embedding of `simplelogger.go`

The package is a process-wide facade over the zap structured logger.  Its
global variables (`cfg`, `logger`, `sugar`, `currentLevel`) become the fields
of an explicit `State` record that every operation takes and returns.  Two
ghost fields record what the facade makes the backend do: `trace` (every call
handed to the backend, in order) and `out` (every line the backend wrote).

Three things the facade relies on live outside the repository and are modelled
here only as far as the facade's contract needs them:

* Go's `fmt` verbs (`Sprintf`, `Sprint`): the control structure of
  `doPrintf` is modelled directive by directive; the rendering of one operand
  is concrete for plain `%s %v %d %T` and bad verbs, and delegated to the
  parameter `Env.printExt` for everything else (flags, width, precision,
  the remaining verbs);
* Go's `strings.ToLower`: concrete on ASCII, delegated to
  `Env.unicodeToLower` for other runes;
* zap: `Config.Build` is the parameter `Env.build`; the level gate of the
  core and the panic / exit hooks of the Panic and Fatal tiers are modelled
  from the repository's specification.
-/

namespace SimpleLogger

/-! ## Levels -/

/-- Level is the type of log levels (`zapcore.Level`, a signed integer). -/
abbrev Level := Int

/-- DebugLevel level. -/
def DebugLevel : Level := -1
/-- InfoLevel level. -/
def InfoLevel : Level := 0
/-- WarnLevel level. -/
def WarnLevel : Level := 1
/-- ErrorLevel level. -/
def ErrorLevel : Level := 2
/-- PanicLevel level. -/
def PanicLevel : Level := 4
/-- FatalLevel level. -/
def FatalLevel : Level := 5

/-! ## Operands, timestamps -/

/-- Values passed as `interface{}` operands: the fragment of Go strings and
integers. -/
inductive Value where
  | str (s : String)
  | int (n : Int)
  deriving DecidableEq, Repr

/-- Wall-clock reading, the fields `time.Now()` is formatted from. -/
structure Time where
  year : Nat
  month : Nat
  day : Nat
  hour : Nat
  minute : Nat
  second : Nat
  nanosecond : Nat
  deriving DecidableEq, Repr

/-- Decimal digits of `n`, zero-padded on the left to at least `width`
characters (`appendInt` of package `time` on a non-negative number). -/
def padZero (width n : Nat) : List Char :=
  let ds := (Nat.repr n).data
  List.replicate (width - ds.length) '0' ++ ds

/-- The result of `t.Format("2006-01-02 15:04:05.000")`: year, month, day,
hour, minute, second and the first three fractional digits. -/
def formatTimestamp (t : Time) : String :=
  String.mk (padZero 4 t.year ++ '-' :: padZero 2 t.month ++ '-' :: padZero 2 t.day
    ++ ' ' :: padZero 2 t.hour ++ ':' :: padZero 2 t.minute ++ ':' :: padZero 2 t.second
    ++ '.' :: padZero 3 (t.nanosecond / 1000000))

/-! ## The `fmt` package, as far as the facade needs it -/

/-- The formatting state of one verb as written in the template: the flag
characters in the order they appear, the width and the precision. -/
structure Directive where
  flags : List Char
  wid : Option Int
  prec : Option Int
  deriving DecidableEq, Repr

/-- A verb with no flag, no width and no precision. -/
def Directive.plain : Directive := ⟨[], none, none⟩

/-- Operand rendering outside the fragment modelled here. -/
abbrev PrintExt := Value → Char → Directive → List Char

/-- Name of the dynamic type of an operand (`reflect.TypeOf(arg).String()`). -/
def typeName : Value → List Char
  | .str _ => "string".data
  | .int _ => "int".data

/-- Rendering of an operand under a plain `%v`. -/
def plainV : Value → List Char
  | .str s => s.data
  | .int n => (toString n).data

/-- The `%!verb(type=value)` text of `badVerb`. -/
def badVerb (arg : Value) (verb : Char) : List Char :=
  '%' :: '!' :: verb :: '(' :: (typeName arg ++ '=' :: plainV arg ++ [')'])

/-- Rendering of one operand under one verb (`pp.printArg`).  Plain `%T`,
`%s`, `%v`, `%d` and the verbs that are invalid for the operand's type are
concrete; the other verbs and every directive with a flag, a width or a
precision go to `ext`. -/
def printArg (ext : PrintExt) (arg : Value) (verb : Char) (d : Directive) : List Char :=
  if d = Directive.plain then
    if verb = 'T' then typeName arg
    else if verb = 'p' then badVerb arg verb
    else
      match arg with
      | .str s =>
        if verb = 's' ∨ verb = 'v' then s.data
        else if verb = 'q' ∨ verb = 'x' ∨ verb = 'X' then ext arg verb d
        else badVerb arg verb
      | .int n =>
        if verb = 'd' ∨ verb = 'v' then (toString n).data
        else if verb = 'b' ∨ verb = 'o' ∨ verb = 'O' ∨ verb = 'x' ∨ verb = 'X'
            ∨ verb = 'c' ∨ verb = 'q' ∨ verb = 'U' then ext arg verb d
        else badVerb arg verb
  else ext arg verb d

/-- Guard of `fmt` against absurd widths and indexes. -/
def tooLarge (x : Int) : Bool := decide (x > 1000000) || decide (x < -1000000)

/-- Loop of `parsenum`: reads decimal digits; on overflow gives up and skips to
the end of the text. -/
def parsenumLoop : List Char → Nat → Bool → Nat × Bool × List Char
  | [], num, isnum => (num, isnum, [])
  | c :: cs, num, isnum =>
    if '0' ≤ c ∧ c ≤ '9' then
      if tooLarge num then (0, false, [])
      else parsenumLoop cs (num * 10 + (c.toNat - '0'.toNat)) true
    else (num, isnum, c :: cs)

/-- Number at the head of `s`: its value, whether a digit was read, and the
rest of the text (`parsenum`). -/
def parsenum (s : List Char) : Nat × Bool × List Char :=
  parsenumLoop s 0 false

/-- Bracketed argument index at the head of `s` (which starts with `[`):
the zero-based index, the number of characters to skip, and whether the index
is well formed (`parseArgNumber`). -/
def parseArgNumber (s : List Char) : Int × Nat × Bool :=
  if s.length < 3 then (0, 1, false)
  else
    let inner := (s.drop 1).takeWhile (fun c => c ≠ ']')
    if inner.length + 1 < s.length then
      match parsenum inner with
      | (width, ok, rest) =>
        if !ok || !rest.isEmpty then (0, inner.length + 2, false)
        else ((width : Int) - 1, inner.length + 2, true)
    else (0, 1, false)

/-- Outcome of looking for an explicit argument index. -/
structure ArgNum where
  argNum : Nat
  rest : List Char
  found : Bool
  reordered : Bool
  goodArgNum : Bool
  deriving DecidableEq, Repr

/-- Explicit argument index `[n]` at the head of `s`, if any
(`pp.argNumber`): a valid index replaces the running argument number; any
bracket marks the call as reordered. -/
def argNumber (argNum : Nat) (s : List Char) (numArgs : Nat) (reordered goodArgNum : Bool) :
    ArgNum :=
  if s.head? = some '[' then
    match parseArgNumber s with
    | (index, wid, ok) =>
      if ok ∧ 0 ≤ index ∧ index < (numArgs : Int) then
        ⟨index.toNat, s.drop wid, true, true, goodArgNum⟩
      else ⟨argNum, s.drop wid, ok, true, false⟩
  else ⟨argNum, s, false, reordered, goodArgNum⟩

/-- Integer operand for a `*` width or precision (`intFromArg`): the value,
whether it is a usable integer, and the next argument number. -/
def intFromArg (a : List Value) (argNum : Nat) : Int × Bool × Nat :=
  match a.get? argNum with
  | none => (0, false, argNum)
  | some (.int n) => if tooLarge n then (0, false, argNum + 1) else (n, true, argNum + 1)
  | some (.str _) => (0, false, argNum + 1)

/-- The `%!(EXTRA type=value, ...)` report for operands no verb consumed. -/
def extraArgs : List Value → List Char
  | [] => []
  | [v] => typeName v ++ '=' :: plainV v
  | v :: w :: vs => typeName v ++ '=' :: plainV v ++ ',' :: ' ' :: extraArgs (w :: vs)

/-- End of `doPrintf`: report the operands left over, unless an explicit
index was used. -/
def finish (a : List Value) (argNum : Nat) (reordered : Bool) : List Char :=
  if !reordered ∧ argNum < a.length then
    "%!(EXTRA ".data ++ extraArgs (a.drop argNum) ++ [')']
  else []

/-- Leading flag characters of a directive and the text after them. -/
def scanFlags : List Char → List Char × List Char
  | [] => ([], [])
  | c :: cs =>
    if c = '#' ∨ c = '0' ∨ c = '+' ∨ c = '-' ∨ c = ' ' then
      (c :: (scanFlags cs).1, (scanFlags cs).2)
    else ([], c :: cs)

/-- Progress through one directive after its flags: text written so far, the
template still to read, the running argument number and the index flags. -/
structure Scan where
  out : List Char
  rest : List Char
  argNum : Nat
  afterIndex : Bool
  reordered : Bool
  goodArgNum : Bool
  wid : Option Int
  prec : Option Int
  deriving DecidableEq, Repr

/-- Width of a directive: `*` takes it from the operands, otherwise it is
read from the template; a literal width right after an index is an error. -/
def scanWidth (a : List Value) (n : ArgNum) : Scan :=
  if n.rest.head? = some '*' then
    match intFromArg a n.argNum with
    | (num, isInt, next) =>
      ⟨if isInt then [] else "%!(BADWIDTH)".data, n.rest.tail, next, false, n.reordered,
        n.goodArgNum, if isInt then some num else none, none⟩
  else
    match parsenum n.rest with
    | (num, isnum, rest) =>
      ⟨[], rest, n.argNum, n.found, n.reordered, n.goodArgNum && !(n.found && isnum),
        if isnum then some (num : Int) else none, none⟩

/-- Precision of a directive, introduced by a dot: an optional index, then
`*` or a literal number (absent means zero). -/
def scanPrec (a : List Value) (w : Scan) : Scan :=
  if w.rest.head? = some '.' then
    let n := argNumber w.argNum w.rest.tail a.length w.reordered (w.goodArgNum && !w.afterIndex)
    if n.rest.head? = some '*' then
      match intFromArg a n.argNum with
      | (num, isInt, next) =>
        let present := isInt && decide (0 ≤ num)
        ⟨w.out ++ (if present then [] else "%!(BADPREC)".data), n.rest.tail, next, false,
          n.reordered, n.goodArgNum, w.wid, if present then some num else none⟩
    else
      match parsenum n.rest with
      | (num, isnum, rest) =>
        ⟨w.out, rest, n.argNum, n.found, n.reordered, n.goodArgNum, w.wid,
          some (if isnum then (num : Int) else 0)⟩
  else w

/-- Result of one directive: the text it wrote, the template after it (`none`
when the template ended inside the directive), and the argument state. -/
structure VerbOut where
  out : List Char
  rest : Option (List Char)
  argNum : Nat
  reordered : Bool
  deriving DecidableEq, Repr

/-- Argument index right before the verb, looked for unless the directive
already ended on one. -/
def indexBeforeVerb (a : List Value) (p : Scan) : ArgNum :=
  if p.afterIndex then ⟨p.argNum, p.rest, true, p.reordered, p.goodArgNum⟩
  else argNumber p.argNum p.rest a.length p.reordered p.goodArgNum

/-- The verb of a directive: `%%` prints a percent sign, a bad index or a
missing operand is reported, otherwise the operand is printed and consumed; a
template that ends before the verb is reported as `%!(NOVERB)`. -/
def applyVerb (ext : PrintExt) (a : List Value) (flags : List Char) (p : Scan) (q : ArgNum) :
    VerbOut :=
  match q.rest with
  | [] => ⟨p.out ++ "%!(NOVERB)".data, none, q.argNum, q.reordered⟩
  | verb :: rest =>
    if verb = '%' then ⟨p.out ++ ['%'], some rest, q.argNum, q.reordered⟩
    else if !q.goodArgNum then
      ⟨p.out ++ '%' :: '!' :: verb :: "(BADINDEX)".data, some rest, q.argNum, q.reordered⟩
    else
      match a.get? q.argNum with
      | none =>
        ⟨p.out ++ '%' :: '!' :: verb :: "(MISSING)".data, some rest, q.argNum, q.reordered⟩
      | some v =>
        ⟨p.out ++ printArg ext v verb ⟨flags, p.wid, p.prec⟩, some rest, q.argNum + 1,
          q.reordered⟩

/-- One directive after its flags, the general path of `doPrintf`: index,
width, precision, index again, then the verb. -/
def doVerb (ext : PrintExt) (a : List Value) (flags : List Char) (s : List Char)
    (argNum : Nat) (reordered : Bool) : VerbOut :=
  applyVerb ext a flags
    (scanPrec a (scanWidth a (argNumber argNum s a.length reordered true)))
    (indexBeforeVerb a (scanPrec a (scanWidth a (argNumber argNum s a.length reordered true))))

/-- One directive, starting right after its `%`: the flags, then either the
short path (a lower-case verb with an operand available) or `doVerb`. -/
def doDirective (ext : PrintExt) (a : List Value) (t : List Char) (argNum : Nat)
    (reordered : Bool) : VerbOut :=
  match scanFlags t with
  | (flags, c :: u) =>
    if 'a' ≤ c ∧ c ≤ 'z' then
      match a.get? argNum with
      | some v => ⟨printArg ext v c ⟨flags, none, none⟩, some u, argNum + 1, reordered⟩
      | none => doVerb ext a flags (c :: u) argNum reordered
    else doVerb ext a flags (c :: u) argNum reordered
  | (flags, []) => doVerb ext a flags [] argNum reordered

/-- Main loop of `doPrintf`: literal text up to the next `%`, then one
directive, until the template is used up.  `fuel` bounds the number of
directives; the template's length plus one always suffices. -/
def doPrintfLoop (ext : PrintExt) (a : List Value) :
    Nat → List Char → Nat → Bool → List Char
  | 0, _, _, _ => []
  | fuel + 1, s, argNum, reordered =>
    match s.dropWhile (fun c => c ≠ '%') with
    | [] => s.takeWhile (fun c => c ≠ '%') ++ finish a argNum reordered
    | _ :: t =>
      match doDirective ext a t argNum reordered with
      | ⟨out, some rest, argNum1, reordered1⟩ =>
        s.takeWhile (fun c => c ≠ '%') ++ out ++ doPrintfLoop ext a fuel rest argNum1 reordered1
      | ⟨out, none, argNum1, reordered1⟩ =>
        s.takeWhile (fun c => c ≠ '%') ++ out ++ finish a argNum1 reordered1

/-- Text of `fmt.Sprintf(format, a...)`. -/
def Sprintf (ext : PrintExt) (format : String) (a : List Value) : String :=
  String.mk (doPrintfLoop ext a (format.length + 1) format.data 0 false)

/-- Whether an operand is of string kind. -/
def isString : Value → Bool
  | .str _ => true
  | .int _ => false

/-- Loop of `doPrint`: operands under `%v`, with a space between two
operands when neither is a string. -/
def doPrint (ext : PrintExt) : List Value → Nat → Bool → List Char
  | [], _, _ => []
  | arg :: rest, argNum, prevString =>
    (if 0 < argNum ∧ !isString arg ∧ !prevString then [' '] else [])
      ++ printArg ext arg 'v' Directive.plain ++ doPrint ext rest (argNum + 1) (isString arg)

/-- Text of `fmt.Sprint(a...)`. -/
def Sprint (ext : PrintExt) (a : List Value) : String :=
  String.mk (doPrint ext a 0 false)

/-! ## Go runtime and zap backend -/

/-- Lower-case mapping of one rune (`unicode.ToLower`): the ASCII range is
handled directly, any other rune is looked up in the Unicode case tables
`u`. -/
def toLowerRune (u : Char → Char) (c : Char) : Char :=
  if c.toNat ≤ 127 then
    if 'A' ≤ c ∧ c ≤ 'Z' then Char.ofNat (c.toNat + 32) else c
  else u c

/-- Text of `strings.ToLower(s)` for a valid UTF-8 string: every rune is
mapped by `unicode.ToLower`. -/
def ToLower (u : Char → Char) (s : String) : String :=
  String.mk (s.data.map (toLowerRune u))

/-- The zap configuration record (`zap.Config`), with the fields the package
sets.  `level` is the atomic level the configuration shares with every logger
built from it. -/
structure Config where
  level : Level
  outputPaths : List String
  errorOutputPaths : List String
  encoding : String
  messageKey : String
  levelKey : String
  levelEncoder : String
  encodeTime : String
  deriving DecidableEq, Repr

/-- A logger built by the backend (`*zap.Logger`), identified by the sinks it
writes to. -/
structure Logger where
  sinks : List String
  errorSinks : List String
  deriving DecidableEq, Repr

/-- The formatting handle of a logger (`*zap.SugaredLogger`). -/
structure SugaredLogger where
  base : Logger
  deriving DecidableEq, Repr

/-- Sugar wraps the logger in its formatting handle (`logger.Sugar()`). -/
def Logger.Sugar (l : Logger) : SugaredLogger := ⟨l⟩

/-- What lies outside the repository: operand rendering beyond the modelled
fragment of `fmt`, the Unicode case tables, and the construction of a logger
from a configuration (`cfg.Build()`), which may fail with an error. -/
structure Env where
  printExt : PrintExt
  unicodeToLower : Char → Char
  build : Config → Except String Logger

/-- A call the facade makes on the backend. -/
inductive BackendCall where
  | sync (l : Logger)
  | logf (s : SugaredLogger) (lvl : Level) (template : String) (args : List Value)
  | log (s : SugaredLogger) (lvl : Level) (args : List Value)
  deriving DecidableEq, Repr

/-- A line written by the backend: the logger that wrote it, its severity and
its message. -/
structure LogLine where
  logger : Logger
  level : Level
  message : String
  deriving DecidableEq, Repr

/-- The package-level variables `cfg`, `logger`, `sugar`, `currentLevel`,
and the record of the interaction with the backend. -/
structure State where
  cfg : Config
  logger : Option Logger
  sugar : Option SugaredLogger
  currentLevel : Level
  trace : List BackendCall
  out : List LogLine
  deriving DecidableEq, Repr

/-- How a call ends: it returns a value, it panics with a value, or it
terminates the process with an exit code. -/
inductive Control (α : Type) where
  | ret (a : α)
  | panic (v : String)
  | exit (code : Int)
  deriving DecidableEq, Repr

/-- The state a call leaves behind and how it ended. -/
structure Outcome (α : Type) where
  st : State
  ctl : Control α
  deriving DecidableEq, Repr

/-- Sequencing of two calls: the second runs only if the first returned. -/
def Outcome.andThen {α β : Type} (o : Outcome α) (f : α → State → Outcome β) : Outcome β :=
  match o.ctl with
  | .ret a => f a o.st
  | .panic v => ⟨o.st, .panic v⟩
  | .exit c => ⟨o.st, .exit c⟩

/-- Modelled from the spec: message of a sugared call (zap's `getMessage`,
not part of this repository): a formatted call renders its template with
`fmt.Sprintf`, a concatenation-style call (empty template) renders its values
with `fmt.Sprint`. -/
def getMessage (ext : PrintExt) (template : String) (fmtArgs : List Value) : String :=
  if fmtArgs.isEmpty then template
  else if template ≠ "" then Sprintf ext template fmtArgs
  else
    match fmtArgs with
    | [.str s] => s
    | _ => Sprint ext fmtArgs

/-- Modelled from the spec: the backend's handling of one sugared call (zap's
`SugaredLogger.log`, not part of this repository).  The line is written
when the severity is at or above the live threshold of the configuration
(messages below the current level are suppressed by the backend); a
Panic-level call then panics with the message, a Fatal-level call then
terminates the process. -/
def backendLog (env : Env) (sg : SugaredLogger) (lvl : Level) (template : String)
    (fmtArgs : List Value) (call : BackendCall) (st : State) : Outcome Unit :=
  let msg := getMessage env.printExt template fmtArgs
  let st1 : State :=
    { st with
      trace := st.trace ++ [call]
      out := if st.cfg.level ≤ lvl then st.out ++ [⟨sg.base, lvl, msg⟩] else st.out }
  if lvl = PanicLevel then ⟨st1, .panic msg⟩
  else if lvl = FatalLevel then ⟨st1, .exit 1⟩
  else ⟨st1, .ret ()⟩

/-- The value a Go program panics with when it calls through a nil pointer. -/
def nilDereference : String := "runtime error: invalid memory address or nil pointer dereference"

/-- A formatted call on the current handle, `sugar.Debugf` ... `sugar.Fatalf`
according to `lvl`. -/
def sugarLogf (env : Env) (lvl : Level) (template : String) (args : List Value)
    (st : State) : Outcome Unit :=
  match st.sugar with
  | none => ⟨st, .panic nilDereference⟩
  | some sg => backendLog env sg lvl template args (.logf sg lvl template args) st

/-- A concatenation-style call on the current handle, `sugar.Error`,
`sugar.Panic` or `sugar.Fatal` according to `lvl`. -/
def sugarLog (env : Env) (lvl : Level) (args : List Value) (st : State) : Outcome Unit :=
  match st.sugar with
  | none => ⟨st, .panic nilDereference⟩
  | some sg => backendLog env sg lvl "" args (.log sg lvl args) st

/-! ## The package `simplelogger` -/

/-- The timestamp every logging function puts first:
`time.Now().Format("2006-01-02 15:04:05.000")`. -/
def timestamp (now : Time) : Value := .str (formatTimestamp now)

/-- SetLevel sets the log level. -/
def SetLevel (lv : Level) (st : State) : State :=
  { st with currentLevel := lv, cfg := { st.cfg with level := lv } }

/-- GetLevel get the current log level. -/
def GetLevel (st : State) : Level := st.currentLevel

/-- Replaces the formatting handle (`setSugar`). -/
def setSugar (sugar_ : SugaredLogger) (st : State) : State :=
  { st with sugar := some sugar_ }

/-- Builds a logger from the configuration; on success syncs the previous
logger, if any, and installs the new logger and its handle; on failure panics
with the error (`rebuildLoggerFromCfg`). -/
def rebuildLoggerFromCfg (env : Env) (st : State) : Outcome Unit :=
  match env.build st.cfg with
  | .ok newLogger =>
    let st1 : State :=
      match st.logger with
      | some old => { st with trace := st.trace ++ [.sync old] }
      | none => st
    let st2 : State := { st1 with logger := some newLogger }
    ⟨setSugar newLogger.Sugar st2, .ret ()⟩
  | .error err => ⟨st, .panic err⟩

/-- SetOutput sets the output writer. -/
def SetOutput (env : Env) (outputs : List String) (st : State) : Outcome Unit :=
  rebuildLoggerFromCfg env { st with cfg := { st.cfg with outputPaths := outputs } }

/-- Debugf logs a formatted message at Debug level. -/
def Debugf (env : Env) (now : Time) (format : String) (args : List Value) (st : State) :
    Outcome Unit :=
  sugarLogf env DebugLevel ("%s - " ++ format) ([timestamp now] ++ args) st

/-- Infof logs a formatted message at Info level. -/
def Infof (env : Env) (now : Time) (format : String) (args : List Value) (st : State) :
    Outcome Unit :=
  sugarLogf env InfoLevel ("%s - " ++ format) ([timestamp now] ++ args) st

/-- Warnf logs a formatted message at Warn level. -/
def Warnf (env : Env) (now : Time) (format : String) (args : List Value) (st : State) :
    Outcome Unit :=
  sugarLogf env WarnLevel ("%s - " ++ format) ([timestamp now] ++ args) st

/-- Errorf logs a formatted message at Error level. -/
def Errorf (env : Env) (now : Time) (format : String) (args : List Value) (st : State) :
    Outcome Unit :=
  sugarLogf env ErrorLevel ("%s - " ++ format) ([timestamp now] ++ args) st

/-- Panicf logs a formatted message at Panic level. -/
def Panicf (env : Env) (now : Time) (format : String) (args : List Value) (st : State) :
    Outcome Unit :=
  sugarLogf env PanicLevel ("%s - " ++ format) ([timestamp now] ++ args) st

/-- Fatalf logs a formatted message at Fatal level. -/
def Fatalf (env : Env) (now : Time) (format : String) (args : List Value) (st : State) :
    Outcome Unit :=
  sugarLogf env FatalLevel ("%s - " ++ format) ([timestamp now] ++ args) st

/-- Error logs its values at Error level. -/
def Error (env : Env) (now : Time) (args : List Value) (st : State) : Outcome Unit :=
  sugarLog env ErrorLevel ([timestamp now, .str " - "] ++ args) st

/-- Panic logs its values at Panic level. -/
def Panic (env : Env) (now : Time) (args : List Value) (st : State) : Outcome Unit :=
  sugarLog env PanicLevel ([timestamp now, .str " - "] ++ args) st

/-- Fatal logs its values at Fatal level. -/
def Fatal (env : Env) (now : Time) (args : List Value) (st : State) : Outcome Unit :=
  sugarLog env FatalLevel ([timestamp now, .str " - "] ++ args) st

/-- TraceError prints the stack and error.  `stack` is the text of
`debug.Stack()` at the call; `now1` and `now2` are the two clock readings. -/
def TraceError (env : Env) (stack : String) (now1 now2 : Time) (format : String)
    (args : List Value) (st : State) : Outcome Unit :=
  (Error env now1 [.str stack] st).andThen (fun _ st1 => Errorf env now2 format args st1)

/-- ParseLevel converts string to Levels. -/
def ParseLevel (env : Env) (now : Time) (s : String) (st : State) : Outcome Level :=
  if ToLower env.unicodeToLower s = "debug" then ⟨st, .ret DebugLevel⟩
  else if ToLower env.unicodeToLower s = "info" then ⟨st, .ret InfoLevel⟩
  else if ToLower env.unicodeToLower s = "warn" ∨ ToLower env.unicodeToLower s = "warning" then
    ⟨st, .ret WarnLevel⟩
  else if ToLower env.unicodeToLower s = "error" then ⟨st, .ret ErrorLevel⟩
  else if ToLower env.unicodeToLower s = "panic" then ⟨st, .ret PanicLevel⟩
  else if ToLower env.unicodeToLower s = "fatal" then ⟨st, .ret FatalLevel⟩
  else
    (Errorf env now "ParseLevel: unknown level: %s" [.str s] st).andThen
      (fun _ st1 => ⟨st1, .ret DebugLevel⟩)

/-- The package variables before `init` runs: Go zero values, nothing
recorded. -/
def zeroState : State :=
  ⟨⟨0, [], [], "", "", "", "", ""⟩, none, none, 0, [], []⟩

/-- Package initialisation: the current level is Debug, the configuration is
decoded from the literal JSON document (a constant that always decodes), the
time encoder is set to ISO-8601, and the first logger is built. -/
def init (env : Env) : Outcome Unit :=
  let st1 : State := { zeroState with currentLevel := DebugLevel }
  let st2 : State :=
    { st1 with cfg := ⟨DebugLevel, ["stderr"], ["stderr"], "console", "message", "level",
        "lowercase", ""⟩ }
  let st3 : State := { st2 with cfg := { st2.cfg with encodeTime := "ISO8601TimeEncoder" } }
  rebuildLoggerFromCfg env st3

/-! ## Sequences of calls -/

/-- One call of the public surface, with the clock readings (and, for
`TraceError`, the stack text) it observes. -/
inductive Op where
  | setLevel (lv : Level)
  | getLevel
  | setOutput (outputs : List String)
  | parseLevel (now : Time) (s : String)
  | debugf (now : Time) (format : String) (args : List Value)
  | infof (now : Time) (format : String) (args : List Value)
  | warnf (now : Time) (format : String) (args : List Value)
  | errorf (now : Time) (format : String) (args : List Value)
  | panicf (now : Time) (format : String) (args : List Value)
  | fatalf (now : Time) (format : String) (args : List Value)
  | error (now : Time) (args : List Value)
  | panic (now : Time) (args : List Value)
  | fatal (now : Time) (args : List Value)
  | traceError (stack : String) (now1 now2 : Time) (format : String) (args : List Value)
  deriving DecidableEq, Repr

/-- Runs one call and forgets the value it returns. -/
def step (env : Env) : Op → State → Outcome Unit
  | .setLevel lv, st => ⟨SetLevel lv st, .ret ()⟩
  | .getLevel, st => ⟨st, .ret ()⟩
  | .setOutput outputs, st => SetOutput env outputs st
  | .parseLevel now s, st => (ParseLevel env now s st).andThen (fun _ st1 => ⟨st1, .ret ()⟩)
  | .debugf now format args, st => Debugf env now format args st
  | .infof now format args, st => Infof env now format args st
  | .warnf now format args, st => Warnf env now format args st
  | .errorf now format args, st => Errorf env now format args st
  | .panicf now format args, st => Panicf env now format args st
  | .fatalf now format args, st => Fatalf env now format args st
  | .error now args, st => Error env now args st
  | .panic now args, st => Panic env now args st
  | .fatal now args, st => Fatal env now args st
  | .traceError stack now1 now2 format args, st => TraceError env stack now1 now2 format args st

/-- Runs a sequence of calls in order; a call that panics or exits ends the
run. -/
def run (env : Env) : List Op → State → Outcome Unit
  | [], st => ⟨st, .ret ()⟩
  | op :: ops, st => (step env op st).andThen (fun _ st1 => run env ops st1)

/-- The argument of the last `SetLevel` in a sequence of calls, or `cur` if
there is none. -/
def lastSetLevel : List Op → Level → Level
  | [], cur => cur
  | .setLevel lv :: ops, _ => lastSetLevel ops lv
  | _ :: ops, cur => lastSetLevel ops cur

/-! ## Shape of a timestamp -/

/-- Whether a text has the shape `YYYY-MM-DD HH:MM:SS.mmm`: 23 characters,
decimal digits where the pattern has a letter, and the pattern's own
separator everywhere else. -/
def timestampShape (cs : List Char) : Bool :=
  cs.map (fun c => if c.isDigit then 'd' else c) == "dddd-dd-dd dd:dd:dd.ddd".data

/-! ## Renumbering of operands -/

/-- The same scan with the running argument number moved one up. -/
def Scan.shift (w : Scan) : Scan := { w with argNum := w.argNum + 1 }

/-- The same index result with the running argument number moved one up. -/
def ArgNum.shift (n : ArgNum) : ArgNum := { n with argNum := n.argNum + 1 }

/-- The same directive result with the running argument number moved one
up. -/
def VerbOut.shift (v : VerbOut) : VerbOut := { v with argNum := v.argNum + 1 }

/-! ## Vocabulary of the contract -/

/-- The level names `ParseLevel` recognises, with their levels. -/
def levelNames : List (String × Level) :=
  [("debug", DebugLevel), ("info", InfoLevel), ("warn", WarnLevel), ("warning", WarnLevel),
    ("error", ErrorLevel), ("panic", PanicLevel), ("fatal", FatalLevel)]

/-- Whether the characters `cs` spell the lower-case word `ds` in some
mixture of upper and lower case. -/
def caseVariantChars : List Char → List Char → Bool
  | [], [] => true
  | c :: cs, d :: ds => (c == d || c == d.toUpper) && caseVariantChars cs ds
  | _, _ => false

/-- Whether `s` is an upper/lower-case combination of the word `name`. -/
def caseVariant (s name : String) : Bool := caseVariantChars s.data name.data

/-- Whether the lower-casing of `s` is one of the recognised level names. -/
def recognized (u : Char → Char) (s : String) : Bool :=
  levelNames.any (fun p => ToLower u s == p.1)

/-! ## A concrete environment -/

/-- An environment for concrete runs: no rendering beyond the modelled
fragment, identity case tables outside ASCII, and a backend that opens every
destination except the empty path. -/
def exampleEnv : Env :=
  ⟨fun _ _ _ => [], fun c => c,
    fun c =>
      if c.outputPaths.all (fun p => p != "") && c.errorOutputPaths.all (fun p => p != "") then
        .ok ⟨c.outputPaths, c.errorOutputPaths⟩
      else .error "open : no such file or directory"⟩

/-- A clock reading: 7 March 2024, 09:05:01.023456789. -/
def exampleTime : Time := ⟨2024, 3, 7, 9, 5, 1, 23456789⟩

/-- The state right after package initialisation in `exampleEnv`. -/
def exampleState : State := (init exampleEnv).st

/-! # Properties

## Frame lemmas -/

/-- A sugared call with a handle in place records the call and leaves the
logger, the handle and the levels alone. -/
theorem backendLog_frame (env : Env) (sg : SugaredLogger) (lvl : Level) (template : String)
    (fmtArgs : List Value) (call : BackendCall) (st : State) :
    (backendLog env sg lvl template fmtArgs call st).st =
      { st with
        trace := st.trace ++ [call]
        out := if st.cfg.level ≤ lvl then
            st.out ++ [⟨sg.base, lvl, getMessage env.printExt template fmtArgs⟩]
          else st.out } := by
  unfold backendLog
  split_ifs <;> rfl

/-- A formatted call changes neither the configuration nor the current
level. -/
theorem sugarLogf_levels (env : Env) (lvl : Level) (template : String) (args : List Value)
    (st : State) :
    (sugarLogf env lvl template args st).st.cfg = st.cfg ∧
    (sugarLogf env lvl template args st).st.currentLevel = st.currentLevel := by
  unfold sugarLogf
  cases st.sugar <;> simp [backendLog_frame]

/-- A concatenation-style call changes neither the configuration nor the
current level. -/
theorem sugarLog_levels (env : Env) (lvl : Level) (args : List Value) (st : State) :
    (sugarLog env lvl args st).st.cfg = st.cfg ∧
    (sugarLog env lvl args st).st.currentLevel = st.currentLevel := by
  unfold sugarLog
  cases st.sugar <;> simp [backendLog_frame]

/-- The state after two calls in sequence is the state after the second
when the first returns, and the state after the first otherwise. -/
theorem andThen_st {α β : Type} (o : Outcome α) (f : α → State → Outcome β) :
    (o.andThen f).st = match o.ctl with
      | .ret a => (f a o.st).st
      | _ => o.st := by
  unfold Outcome.andThen
  cases o.ctl <;> rfl

/-- `ParseLevel` changes neither the configuration nor the current level. -/
theorem parseLevel_levels (env : Env) (now : Time) (s : String) (st : State) :
    (ParseLevel env now s st).st.cfg = st.cfg ∧
    (ParseLevel env now s st).st.currentLevel = st.currentLevel := by
  have h := sugarLogf_levels env ErrorLevel ("%s - " ++ "ParseLevel: unknown level: %s")
    ([timestamp now] ++ [.str s]) st
  unfold ParseLevel
  split_ifs <;> try exact ⟨rfl, rfl⟩
  rw [andThen_st]
  unfold Errorf
  split <;> exact h

/-- The logger rebuild changes neither the configuration nor the current
level. -/
theorem rebuild_levels (env : Env) (st : State) :
    (rebuildLoggerFromCfg env st).st.cfg = st.cfg ∧
    (rebuildLoggerFromCfg env st).st.currentLevel = st.currentLevel := by
  unfold rebuildLoggerFromCfg
  cases env.build st.cfg with
  | error err => simp
  | ok lg => cases st.logger <;> simp [setSugar]

/-- `TraceError` changes neither the configuration nor the current level. -/
theorem traceError_levels (env : Env) (stack : String) (now1 now2 : Time) (format : String)
    (args : List Value) (st : State) :
    (TraceError env stack now1 now2 format args st).st.cfg = st.cfg ∧
    (TraceError env stack now1 now2 format args st).st.currentLevel = st.currentLevel := by
  have h1 := sugarLog_levels env ErrorLevel ([timestamp now1, .str " - "] ++ [.str stack]) st
  unfold TraceError
  rw [andThen_st]
  split
  · have h2 := sugarLogf_levels env ErrorLevel ("%s - " ++ format) ([timestamp now2] ++ args)
      (Error env now1 [.str stack] st).st
    unfold Errorf
    unfold Error at h2 ⊢
    exact ⟨h2.1.trans h1.1, h2.2.trans h1.2⟩
  · exact h1

/-- One call moves both the current level and the live threshold of the
configuration to the argument of `SetLevel`, and leaves both alone if it is
any other call. -/
theorem step_levels (env : Env) (op : Op) (st : State) :
    (step env op st).st.currentLevel = lastSetLevel [op] st.currentLevel ∧
    (step env op st).st.cfg.level = lastSetLevel [op] st.cfg.level := by
  cases op with
  | setLevel lv => exact ⟨rfl, rfl⟩
  | getLevel => exact ⟨rfl, rfl⟩
  | setOutput outputs =>
    have h := rebuild_levels env { st with cfg := { st.cfg with outputPaths := outputs } }
    exact ⟨h.2, (congrArg Config.level h.1).trans rfl⟩
  | parseLevel now s =>
    have h := parseLevel_levels env now s st
    simp only [step, andThen_st, lastSetLevel]
    split <;> exact ⟨h.2, by rw [h.1]⟩
  | debugf now format args =>
    have h := sugarLogf_levels env DebugLevel ("%s - " ++ format) ([timestamp now] ++ args) st
    exact ⟨h.2, congrArg Config.level h.1⟩
  | infof now format args =>
    have h := sugarLogf_levels env InfoLevel ("%s - " ++ format) ([timestamp now] ++ args) st
    exact ⟨h.2, congrArg Config.level h.1⟩
  | warnf now format args =>
    have h := sugarLogf_levels env WarnLevel ("%s - " ++ format) ([timestamp now] ++ args) st
    exact ⟨h.2, congrArg Config.level h.1⟩
  | errorf now format args =>
    have h := sugarLogf_levels env ErrorLevel ("%s - " ++ format) ([timestamp now] ++ args) st
    exact ⟨h.2, congrArg Config.level h.1⟩
  | panicf now format args =>
    have h := sugarLogf_levels env PanicLevel ("%s - " ++ format) ([timestamp now] ++ args) st
    exact ⟨h.2, congrArg Config.level h.1⟩
  | fatalf now format args =>
    have h := sugarLogf_levels env FatalLevel ("%s - " ++ format) ([timestamp now] ++ args) st
    exact ⟨h.2, congrArg Config.level h.1⟩
  | error now args =>
    have h := sugarLog_levels env ErrorLevel ([timestamp now, .str " - "] ++ args) st
    exact ⟨h.2, congrArg Config.level h.1⟩
  | panic now args =>
    have h := sugarLog_levels env PanicLevel ([timestamp now, .str " - "] ++ args) st
    exact ⟨h.2, congrArg Config.level h.1⟩
  | fatal now args =>
    have h := sugarLog_levels env FatalLevel ([timestamp now, .str " - "] ++ args) st
    exact ⟨h.2, congrArg Config.level h.1⟩
  | traceError stack now1 now2 format args =>
    have h := traceError_levels env stack now1 now2 format args st
    exact ⟨h.2, congrArg Config.level h.1⟩

/-- The last `SetLevel` of a sequence, seen from its first call. -/
theorem lastSetLevel_cons (op : Op) (ops : List Op) (cur : Level) :
    lastSetLevel (op :: ops) cur = lastSetLevel ops (lastSetLevel [op] cur) := by
  cases op <;> rfl

/-- A run that returns leaves both levels at the argument of its last
`SetLevel`, or where they were if it has none. -/
theorem run_levels (env : Env) (ops : List Op) :
    ∀ (st stN : State), run env ops st = ⟨stN, .ret ()⟩ →
      stN.currentLevel = lastSetLevel ops st.currentLevel ∧
      stN.cfg.level = lastSetLevel ops st.cfg.level := by
  induction ops with
  | nil =>
    intro st stN h
    simp only [run, Outcome.mk.injEq] at h
    rw [← h.1]
    exact ⟨rfl, rfl⟩
  | cons op ops ih =>
    intro st stN h
    have hs := step_levels env op st
    rw [lastSetLevel_cons op ops st.currentLevel, lastSetLevel_cons op ops st.cfg.level,
      ← hs.1, ← hs.2]
    simp only [run, Outcome.andThen] at h
    cases hc : (step env op st).ctl with
    | ret a => rw [hc] at h; exact ih _ _ h
    | panic v => rw [hc] at h; simp at h
    | exit c => rw [hc] at h; simp at h

/-! ## Timestamps -/

/-- The character of a decimal digit is a digit. -/
theorem digitChar_isDigit (n : Nat) (h : n < 10) : (Nat.digitChar n).isDigit = true := by
  interval_cases n <;> rfl

/-- The decimal digits of a number below `10 ^ k` are at most `k` characters,
all of them digits. -/
theorem toDigitsCore_bound :
    ∀ (fuel k n : Nat) (ds : List Char), 1 ≤ k → n < 10 ^ k →
      (∀ c ∈ ds, c.isDigit = true) →
      (Nat.toDigitsCore 10 fuel n ds).length ≤ k + ds.length ∧
      ∀ c ∈ Nat.toDigitsCore 10 fuel n ds, c.isDigit = true := by
  intro fuel
  induction fuel with
  | zero =>
    intro k n ds _ _ hds
    exact ⟨by simp [Nat.toDigitsCore], by simpa [Nat.toDigitsCore] using hds⟩
  | succ f ih =>
    intro k n ds hk hn hds
    have hd : (Nat.digitChar (n % 10)).isDigit = true :=
      digitChar_isDigit _ (Nat.mod_lt _ (by decide))
    have hds1 : ∀ c ∈ Nat.digitChar (n % 10) :: ds, c.isDigit = true := by
      intro c hc
      rcases List.mem_cons.mp hc with h | h
      · rw [h]; exact hd
      · exact hds c h
    unfold Nat.toDigitsCore
    simp only
    by_cases h0 : n / 10 = 0
    · rw [if_pos h0]
      exact ⟨by simp only [List.length_cons]; omega, hds1⟩
    · rw [if_neg h0]
      have hk2 : 2 ≤ k := by
        by_contra hlt
        have hk1 : k = 1 := by omega
        subst hk1
        exact h0 (Nat.div_eq_of_lt (by simpa using hn))
      have hn1 : n / 10 < 10 ^ (k - 1) := by
        have hp : 10 ^ k = 10 ^ (k - 1) * 10 := by
          rw [← pow_succ]
          congr 1
          omega
        rw [hp] at hn
        exact Nat.div_lt_of_lt_mul (by rw [Nat.mul_comm]; exact hn)
      have h1 := ih (k - 1) (n / 10) (Nat.digitChar (n % 10) :: ds) (by omega) hn1 hds1
      exact ⟨by have := h1.1; simp only [List.length_cons] at this; omega, h1.2⟩

/-- Padding a number below `10 ^ width` gives exactly `width` digits. -/
theorem padZero_digits (width n : Nat) (hw : 1 ≤ width) (hn : n < 10 ^ width) :
    (padZero width n).length = width ∧ ∀ c ∈ padZero width n, c.isDigit = true := by
  have h := toDigitsCore_bound (n + 1) width n [] hw hn (by simp)
  have hr : (Nat.repr n).data = Nat.toDigitsCore 10 (n + 1) n [] := rfl
  unfold padZero
  simp only [hr]
  refine ⟨?_, ?_⟩
  · have := h.1
    simp only [List.length_nil, Nat.add_zero] at this
    simp only [List.length_append, List.length_replicate]
    omega
  · intro c hc
    rcases List.mem_append.mp hc with h1 | h1
    · rw [(List.mem_replicate.mp h1).2]; rfl
    · exact h.2 c h1

/-- Marking the digits of a run of digits gives as many marks. -/
theorem map_mark_digits (cs : List Char) (h : ∀ c ∈ cs, c.isDigit = true) :
    cs.map (fun c => if c.isDigit then 'd' else c) = List.replicate cs.length 'd' := by
  induction cs with
  | nil => rfl
  | cons c cs ih =>
    have hc := h c (List.mem_cons_self c cs)
    simp only [List.map_cons, hc, if_true, List.length_cons, List.replicate_succ]
    rw [ih (fun x hx => h x (List.mem_cons_of_mem c hx))]

/-- Marking the digits of a padded number below `10 ^ width` gives `width`
marks. -/
theorem map_mark_padZero (width n : Nat) (hw : 1 ≤ width) (hn : n < 10 ^ width) :
    (padZero width n).map (fun c => if c.isDigit then 'd' else c) = List.replicate width 'd' := by
  have h := padZero_digits width n hw hn
  rw [map_mark_digits _ h.2, h.1]

/-- The timestamp of a clock reading with a year of at most four digits has
the shape `YYYY-MM-DD HH:MM:SS.mmm`. -/
theorem formatTimestamp_shape (t : Time) (hy : t.year < 10000) (hmo : t.month < 100)
    (hd : t.day < 100) (hh : t.hour < 100) (hmi : t.minute < 100) (hs : t.second < 100)
    (hn : t.nanosecond < 1000000000) :
    timestampShape (formatTimestamp t).data = true := by
  have hms : t.nanosecond / 1000000 < 10 ^ 3 := by
    have : t.nanosecond / 1000000 < 1000 := Nat.div_lt_of_lt_mul (by omega)
    simpa using this
  unfold timestampShape formatTimestamp
  simp only [List.map_append, List.map_cons,
    map_mark_padZero 4 t.year (by decide) (by simpa using hy),
    map_mark_padZero 2 t.month (by decide) (by simpa using hmo),
    map_mark_padZero 2 t.day (by decide) (by simpa using hd),
    map_mark_padZero 2 t.hour (by decide) (by simpa using hh),
    map_mark_padZero 2 t.minute (by decide) (by simpa using hmi),
    map_mark_padZero 2 t.second (by decide) (by simpa using hs),
    map_mark_padZero 3 (t.nanosecond / 1000000) (by decide) hms]
  decide

/-- The shape of the timestamp of 7 March 2024, 09:05:01.023456789. -/
theorem formatTimestamp_shape_witness :
    formatTimestamp exampleTime = "2024-03-07 09:05:01.023" ∧
    timestampShape (formatTimestamp exampleTime).data = true :=
  ⟨by decide, formatTimestamp_shape exampleTime (by decide) (by decide) (by decide) (by decide)
    (by decide) (by decide) (by decide)⟩

/-! ## The directive loop of `fmt` -/

/-- The text `parsenum` leaves is a suffix of the text it was given. -/
theorem parsenumLoop_suffix :
    ∀ (s : List Char) (num : Nat) (isnum : Bool), (parsenumLoop s num isnum).2.2 <:+ s := by
  intro s
  induction s with
  | nil => intro num isnum; exact List.suffix_refl _
  | cons c cs ih =>
    intro num isnum
    unfold parsenumLoop
    split_ifs
    · exact List.nil_suffix
    · exact (ih _ _).trans (List.suffix_cons c cs)
    · exact List.suffix_refl _

/-- The text after an optional argument index is a suffix of the text
before it. -/
theorem argNumber_suffix (argNum : Nat) (s : List Char) (numArgs : Nat) (r g : Bool) :
    (argNumber argNum s numArgs r g).rest <:+ s := by
  unfold argNumber
  by_cases h : s.head? = some '['
  · rw [if_pos h]
    generalize parseArgNumber s = res
    obtain ⟨index, wid, ok⟩ := res
    simp only
    by_cases h2 : ok = true ∧ 0 ≤ index ∧ index < (numArgs : Int)
    · rw [if_pos h2]; exact List.drop_suffix _ _
    · rw [if_neg h2]; exact List.drop_suffix _ _
  · rw [if_neg h]

/-- A text without a bracket carries no argument index. -/
theorem argNumber_of_not_mem (argNum : Nat) (s : List Char) (numArgs : Nat) (r g : Bool)
    (h : '[' ∉ s) : argNumber argNum s numArgs r g = ⟨argNum, s, false, r, g⟩ := by
  unfold argNumber
  rw [if_neg]
  intro hh
  exact h (List.mem_of_mem_head? hh)

/-- The text after the flags is a suffix of the text before them. -/
theorem scanFlags_suffix : ∀ (t : List Char), (scanFlags t).2 <:+ t := by
  intro t
  induction t with
  | nil => exact List.suffix_refl _
  | cons c cs ih =>
    unfold scanFlags
    split_ifs
    · exact ih.trans (List.suffix_cons c cs)
    · exact List.suffix_refl _

/-- The text after the width is a suffix of the text before it. -/
theorem scanWidth_suffix (a : List Value) (n : ArgNum) : (scanWidth a n).rest <:+ n.rest := by
  unfold scanWidth
  by_cases h : n.rest.head? = some '*'
  · rw [if_pos h]; exact List.tail_suffix _
  · rw [if_neg h]; exact parsenumLoop_suffix _ _ _

/-- The text after the precision is a suffix of the text before it. -/
theorem scanPrec_suffix (a : List Value) (w : Scan) : (scanPrec a w).rest <:+ w.rest := by
  have h1 := argNumber_suffix w.argNum w.rest.tail a.length w.reordered
    (w.goodArgNum && !w.afterIndex)
  unfold scanPrec
  by_cases h : w.rest.head? = some '.'
  · rw [if_pos h]
    simp only
    by_cases h2 : (argNumber w.argNum w.rest.tail a.length w.reordered
        (w.goodArgNum && !w.afterIndex)).rest.head? = some '*'
    · rw [if_pos h2]
      exact ((List.tail_suffix _).trans h1).trans (List.tail_suffix _)
    · rw [if_neg h2]
      exact ((parsenumLoop_suffix _ _ _).trans h1).trans (List.tail_suffix _)
  · rw [if_neg h]

/-- The text after the index before the verb is a suffix of the text before
it. -/
theorem indexBeforeVerb_suffix (a : List Value) (p : Scan) :
    (indexBeforeVerb a p).rest <:+ p.rest := by
  unfold indexBeforeVerb
  split_ifs
  · exact List.suffix_refl _
  · exact argNumber_suffix _ _ _ _ _

/-- The verb consumes exactly one character of the template, if there is
one. -/
theorem applyVerb_rest (ext : PrintExt) (a : List Value) (flags : List Char) (p : Scan)
    (q : ArgNum) : (applyVerb ext a flags p q).rest = q.rest.tail? := by
  unfold applyVerb
  split
  · rename_i h; rw [h]; rfl
  · rename_i verb rest h
    rw [h]
    split_ifs
    · rfl
    · rfl
    · split <;> rfl

/-- The template left after a directive is a suffix of the text the directive
started from (general path). -/
theorem doVerb_suffix (ext : PrintExt) (a : List Value) (flags s : List Char) (argNum : Nat)
    (reordered : Bool) (rest : List Char)
    (h : (doVerb ext a flags s argNum reordered).rest = some rest) : rest <:+ s := by
  have hp : (scanPrec a (scanWidth a (argNumber argNum s a.length reordered true))).rest <:+ s :=
    ((scanPrec_suffix a _).trans (scanWidth_suffix a _)).trans (argNumber_suffix _ _ _ _ _)
  have hq := indexBeforeVerb_suffix a
    (scanPrec a (scanWidth a (argNumber argNum s a.length reordered true)))
  unfold doVerb at h
  rw [applyVerb_rest] at h
  cases hr : (indexBeforeVerb a
      (scanPrec a (scanWidth a (argNumber argNum s a.length reordered true)))).rest with
  | nil => rw [hr] at h; simp at h
  | cons c cs =>
    rw [hr] at h hq
    simp only [List.tail?_cons, Option.some.injEq] at h
    subst h
    exact ((List.suffix_cons c cs).trans hq).trans hp

/-- The template left after a directive is a suffix of the text the directive
started from. -/
theorem doDirective_suffix (ext : PrintExt) (a : List Value) (t : List Char) (argNum : Nat)
    (reordered : Bool) (rest : List Char)
    (h : (doDirective ext a t argNum reordered).rest = some rest) : rest <:+ t := by
  have hf := scanFlags_suffix t
  unfold doDirective at h
  split at h
  · rename_i flags c u hs
    rw [hs] at hf
    split_ifs at h
    · split at h
      · simp only [Option.some.injEq] at h
        subst h
        exact (List.suffix_cons c u).trans hf
      · exact (doVerb_suffix ext a flags (c :: u) argNum reordered rest h).trans hf
    · exact (doVerb_suffix ext a flags (c :: u) argNum reordered rest h).trans hf
  · rename_i flags hs
    exact (doVerb_suffix ext a flags [] argNum reordered rest h).trans (List.nil_suffix)

/-- The directive loop does not depend on its fuel once the fuel exceeds the
length of the template: the bound is never reached. -/
theorem doPrintfLoop_fuel (ext : PrintExt) (a : List Value) :
    ∀ (fuel1 fuel2 : Nat) (s : List Char) (argNum : Nat) (reordered : Bool),
      s.length < fuel1 → s.length < fuel2 →
      doPrintfLoop ext a fuel1 s argNum reordered = doPrintfLoop ext a fuel2 s argNum reordered := by
  intro fuel1
  induction fuel1 with
  | zero => intro fuel2 s argNum reordered h1; omega
  | succ n ih =>
    intro fuel2 s argNum reordered h1 h2
    cases fuel2 with
    | zero => omega
    | succ m =>
      unfold doPrintfLoop
      have hd : (s.dropWhile (fun c => c ≠ '%')).length ≤ s.length :=
        (List.dropWhile_suffix _).length_le
      cases hdw : s.dropWhile (fun c => c ≠ '%') with
      | nil => rfl
      | cons c t =>
        rw [hdw] at hd
        simp only [List.length_cons] at hd
        simp only
        cases hdd : doDirective ext a t argNum reordered with
        | mk out rest argNum1 reordered1 =>
          cases rest with
          | none => rfl
          | some rest =>
            have hs : rest <:+ t := doDirective_suffix ext a t argNum reordered rest (by rw [hdd])
            have hl := hs.length_le
            simp only
            rw [ih m rest argNum1 reordered1 (by omega) (by omega)]

/-- An operand list with one more operand in front serves the same integer
one position later. -/
theorem intFromArg_cons (x : Value) (a : List Value) (n : Nat) :
    intFromArg (x :: a) (n + 1) =
      ((intFromArg a n).1, (intFromArg a n).2.1, (intFromArg a n).2.2 + 1) := by
  unfold intFromArg
  rw [List.get?_cons_succ]
  cases a.get? n with
  | none => rfl
  | some v =>
    cases v with
    | str s => rfl
    | int k => simp only; split_ifs <;> rfl

/-- The width scan commutes with putting one more operand in front. -/
theorem scanWidth_cons (x : Value) (a : List Value) (n : ArgNum) :
    scanWidth (x :: a) n.shift = (scanWidth a n).shift := by
  unfold scanWidth
  simp only [ArgNum.shift, intFromArg_cons]
  split_ifs <;> rfl

/-- The precision scan commutes with putting one more operand in front, when
the text has no bracket. -/
theorem scanPrec_cons (x : Value) (a : List Value) (w : Scan) (h : '[' ∉ w.rest) :
    scanPrec (x :: a) w.shift = (scanPrec a w).shift := by
  have ht : '[' ∉ w.rest.tail := fun hm => h ((List.tail_suffix _).subset hm)
  unfold scanPrec
  simp only [Scan.shift, argNumber_of_not_mem _ _ _ _ _ ht, intFromArg_cons]
  split_ifs <;> rfl

/-- The index before the verb commutes with putting one more operand in
front, when the text has no bracket. -/
theorem indexBeforeVerb_cons (x : Value) (a : List Value) (p : Scan) (h : '[' ∉ p.rest) :
    indexBeforeVerb (x :: a) p.shift = (indexBeforeVerb a p).shift := by
  unfold indexBeforeVerb
  simp only [Scan.shift]
  split_ifs
  · rfl
  · rw [argNumber_of_not_mem _ _ _ _ _ h, argNumber_of_not_mem _ _ _ _ _ h]
    rfl

/-- The verb step commutes with putting one more operand in front. -/
theorem applyVerb_cons (ext : PrintExt) (x : Value) (a : List Value) (flags : List Char)
    (p : Scan) (q : ArgNum) :
    applyVerb ext (x :: a) flags p.shift q.shift = (applyVerb ext a flags p q).shift := by
  unfold applyVerb
  simp only [Scan.shift, ArgNum.shift, List.get?_cons_succ]
  cases q.rest with
  | nil => rfl
  | cons verb rest =>
    simp only
    split_ifs
    · rfl
    · rfl
    · cases a.get? q.argNum <;> rfl

/-- Without a bracket in the text the width scan does not touch the
reordering flag. -/
theorem scanWidth_reordered (a : List Value) (n : ArgNum) :
    (scanWidth a n).reordered = n.reordered := by
  unfold scanWidth
  split_ifs <;> rfl

/-- Without a bracket in the text the precision scan does not touch the
reordering flag. -/
theorem scanPrec_reordered (a : List Value) (w : Scan) (h : '[' ∉ w.rest) :
    (scanPrec a w).reordered = w.reordered := by
  have ht : '[' ∉ w.rest.tail := fun hm => h ((List.tail_suffix _).subset hm)
  unfold scanPrec
  simp only [argNumber_of_not_mem _ _ _ _ _ ht]
  split_ifs <;> rfl

/-- The verb step hands on the reordering flag it is given. -/
theorem applyVerb_reordered (ext : PrintExt) (a : List Value) (flags : List Char) (p : Scan)
    (q : ArgNum) : (applyVerb ext a flags p q).reordered = q.reordered := by
  unfold applyVerb
  cases q.rest with
  | nil => rfl
  | cons verb rest =>
    simp only
    split_ifs
    · rfl
    · rfl
    · cases a.get? q.argNum <;> rfl

/-- A directive without a bracket leaves the reordering flag as it was
(general path). -/
theorem doVerb_reordered (ext : PrintExt) (a : List Value) (flags s : List Char) (argNum : Nat)
    (reordered : Bool) (h : '[' ∉ s) :
    (doVerb ext a flags s argNum reordered).reordered = reordered := by
  have hw : '[' ∉ (scanWidth a ⟨argNum, s, false, reordered, true⟩).rest :=
    fun hm => h ((scanWidth_suffix a _).subset hm)
  have hp : '[' ∉ (scanPrec a (scanWidth a ⟨argNum, s, false, reordered, true⟩)).rest :=
    fun hm => hw ((scanPrec_suffix a _).subset hm)
  unfold doVerb
  rw [applyVerb_reordered, argNumber_of_not_mem _ _ _ _ _ h]
  unfold indexBeforeVerb
  split_ifs
  · simp only [scanPrec_reordered a _ hw, scanWidth_reordered]
  · rw [argNumber_of_not_mem _ _ _ _ _ hp]
    simp only [scanPrec_reordered a _ hw, scanWidth_reordered]

/-- A directive without a bracket commutes with putting one more operand in
front (general path). -/
theorem doVerb_cons (ext : PrintExt) (x : Value) (a : List Value) (flags s : List Char)
    (argNum : Nat) (reordered : Bool) (h : '[' ∉ s) :
    doVerb ext (x :: a) flags s (argNum + 1) reordered =
      (doVerb ext a flags s argNum reordered).shift := by
  have hw : '[' ∉ (scanWidth a ⟨argNum, s, false, reordered, true⟩).rest :=
    fun hm => h ((scanWidth_suffix a _).subset hm)
  have hp : '[' ∉ (scanPrec a (scanWidth a ⟨argNum, s, false, reordered, true⟩)).rest :=
    fun hm => hw ((scanPrec_suffix a _).subset hm)
  have e0 : (⟨argNum + 1, s, false, reordered, true⟩ : ArgNum) =
      ArgNum.shift ⟨argNum, s, false, reordered, true⟩ := rfl
  unfold doVerb
  rw [argNumber_of_not_mem _ _ _ _ _ h, argNumber_of_not_mem _ _ _ _ _ h, e0,
    scanWidth_cons, scanPrec_cons x a _ hw, indexBeforeVerb_cons x a _ hp, applyVerb_cons]

/-- Operands with one more in front, one position later. -/
theorem get?_cons_shift (x : Value) (a : List Value) (n : Nat) :
    (x :: a).get? (n + 1) = a.get? n := List.get?_cons_succ

/-- A directive without a bracket commutes with putting one more operand in
front. -/
theorem doDirective_cons (ext : PrintExt) (x : Value) (a : List Value) (t : List Char)
    (argNum : Nat) (reordered : Bool) (h : '[' ∉ t) :
    doDirective ext (x :: a) t (argNum + 1) reordered =
      (doDirective ext a t argNum reordered).shift := by
  have hf : '[' ∉ (scanFlags t).2 := fun hm => h ((scanFlags_suffix t).subset hm)
  unfold doDirective
  cases hs : scanFlags t with
  | mk flags u =>
    rw [hs] at hf
    cases u with
    | nil => exact doVerb_cons ext x a flags [] argNum reordered hf
    | cons c u =>
      simp only [get?_cons_shift]
      split_ifs
      · cases a.get? argNum with
        | none => exact doVerb_cons ext x a flags (c :: u) argNum reordered hf
        | some v => rfl
      · exact doVerb_cons ext x a flags (c :: u) argNum reordered hf

/-- A directive without a bracket leaves the reordering flag as it was. -/
theorem doDirective_reordered (ext : PrintExt) (a : List Value) (t : List Char)
    (argNum : Nat) (reordered : Bool) (h : '[' ∉ t) :
    (doDirective ext a t argNum reordered).reordered = reordered := by
  have hf : '[' ∉ (scanFlags t).2 := fun hm => h ((scanFlags_suffix t).subset hm)
  unfold doDirective
  cases hs : scanFlags t with
  | mk flags u =>
    rw [hs] at hf
    cases u with
    | nil => exact doVerb_reordered ext a flags [] argNum reordered hf
    | cons c u =>
      simp only
      split_ifs
      · cases a.get? argNum with
        | none => exact doVerb_reordered ext a flags (c :: u) argNum reordered hf
        | some v => rfl
      · exact doVerb_reordered ext a flags (c :: u) argNum reordered hf

/-- The report of left-over operands is the same with one more operand in
front and the argument number one up. -/
theorem finish_cons (x : Value) (a : List Value) (argNum : Nat) (reordered : Bool) :
    finish (x :: a) (argNum + 1) reordered = finish a argNum reordered := by
  unfold finish
  simp only [List.length_cons, Nat.add_lt_add_iff_right, List.drop_succ_cons]

/-- On a template without a bracket the directive loop gives the same text
with one more operand in front and the argument number one up. -/
theorem doPrintfLoop_cons (ext : PrintExt) (x : Value) (a : List Value) :
    ∀ (fuel : Nat) (s : List Char) (argNum : Nat) (reordered : Bool), '[' ∉ s →
      doPrintfLoop ext (x :: a) fuel s (argNum + 1) reordered =
        doPrintfLoop ext a fuel s argNum reordered := by
  intro fuel
  induction fuel with
  | zero => intro s argNum reordered _; rfl
  | succ n ih =>
    intro s argNum reordered h
    unfold doPrintfLoop
    have hd : '[' ∉ s.dropWhile (fun c => c ≠ '%') :=
      fun hm => h ((List.dropWhile_suffix _).subset hm)
    cases hdw : s.dropWhile (fun c => c ≠ '%') with
    | nil => simp only [finish_cons]
    | cons c t =>
      rw [hdw] at hd
      have ht : '[' ∉ t := fun hm => hd (List.mem_cons_of_mem c hm)
      simp only [doDirective_cons ext x a t argNum reordered ht]
      cases hdd : doDirective ext a t argNum reordered with
      | mk out rest argNum1 reordered1 =>
        cases rest with
        | none => simp only [VerbOut.shift, finish_cons]
        | some rest =>
          have hs : rest <:+ t := doDirective_suffix ext a t argNum reordered rest (by rw [hdd])
          simp only [VerbOut.shift]
          rw [ih rest argNum1 reordered1 (fun hm => ht (hs.subset hm))]

/-- Literal text in front of a template comes out in front of the rendering. -/
theorem doPrintfLoop_literal (ext : PrintExt) (a : List Value) (fuel : Nat) (l s : List Char)
    (argNum : Nat) (reordered : Bool) (hl : '%' ∉ l) :
    doPrintfLoop ext a (fuel + 1) (l ++ s) argNum reordered =
      l ++ doPrintfLoop ext a (fuel + 1) s argNum reordered := by
  have hall : ∀ c ∈ l, (fun c => decide (c ≠ '%')) c = true := by
    intro c hc
    simp only [ne_eq, decide_not, Bool.not_eq_true', decide_eq_false_iff_not]
    intro he
    exact hl (he ▸ hc)
  have ht : (l ++ s).takeWhile (fun c => c ≠ '%') = l ++ s.takeWhile (fun c => c ≠ '%') :=
    List.takeWhile_append_of_pos hall
  have hd : (l ++ s).dropWhile (fun c => c ≠ '%') = s.dropWhile (fun c => c ≠ '%') :=
    List.dropWhile_append_of_pos hall
  unfold doPrintfLoop
  rw [ht, hd]
  cases s.dropWhile (fun c => c ≠ '%') with
  | nil => simp only [List.append_assoc]
  | cons c t =>
    simp only
    cases doDirective ext a t argNum reordered with
    | mk out rest argNum1 reordered1 =>
      cases rest <;> simp only [List.append_assoc]

/-- On a template without explicit argument indexes, rendering the template
behind the prefix `"%s - "` with a string put in front of the operands gives
that string, `" - "`, and the rendering of the template with the operands
alone. -/
theorem sprintf_prefixed (ext : PrintExt) (ts format : String) (args : List Value)
    (h : '[' ∉ format.data) :
    Sprintf ext ("%s - " ++ format) (.str ts :: args) = ts ++ " - " ++ Sprintf ext format args := by
  apply String.ext
  have e1 : doPrintfLoop ext (.str ts :: args) (format.length + 6)
      ('%' :: 's' :: (' ' :: '-' :: ' ' :: format.data)) 0 false =
      ts.data ++ doPrintfLoop ext (.str ts :: args) (format.length + 5)
        ([' ', '-', ' '] ++ format.data) 1 false := by
    simp [doPrintfLoop, doDirective, scanFlags, printArg, Directive.plain]
  have e2 := doPrintfLoop_literal ext (.str ts :: args) (format.length + 4) [' ', '-', ' ']
    format.data 1 false (by decide)
  have e3 := doPrintfLoop_cons ext (.str ts) args (format.length + 5) format.data 0 false h
  have hlen : format.data.length = format.length := rfl
  have e4 := doPrintfLoop_fuel ext args (format.length + 5) (format.length + 1) format.data 0
    false (by omega) (by omega)
  simp only [Sprintf, String.data_append, String.length_append]
  have e5 : ("%s - " : String).length + format.length + 1 = format.length + 6 := by
    have : ("%s - " : String).length = 5 := by decide
    omega
  rw [e5]
  show doPrintfLoop ext (.str ts :: args) (format.length + 6)
      ('%' :: 's' :: (' ' :: '-' :: ' ' :: format.data)) 0 false = _
  rw [e1, e2, e3, e4]
  simp

/-! ## Rendering of the messages the package composes -/

/-- The template every formatted logging function composes is never empty,
and its operand list never is, so the backend renders it with `Sprintf`. -/
theorem getMessage_prefixed (ext : PrintExt) (format : String) (x : Value) (args : List Value) :
    getMessage ext ("%s - " ++ format) (x :: args) = Sprintf ext ("%s - " ++ format) (x :: args) := by
  have hne : "%s - " ++ format ≠ "" := by
    intro h
    have hd := congrArg String.data h
    simp at hd
  simp [getMessage, hne]

/-- Three strings handed to a concatenation-style call are rendered one after
the other, with nothing in between. -/
theorem getMessage_three_strings (ext : PrintExt) (a b c : String) :
    getMessage ext "" [.str a, .str b, .str c] = a ++ b ++ c := by
  apply String.ext
  simp [getMessage, Sprint, doPrint, printArg, isString]

/-- Rendering of the message `ParseLevel` reports an unknown name with. -/
theorem sprintf_unknown_level (ext : PrintExt) (ts s : String) :
    Sprintf ext ("%s - " ++ "ParseLevel: unknown level: %s") [.str ts, .str s] =
      ts ++ " - ParseLevel: unknown level: " ++ s := by
  apply String.ext
  simp [Sprintf, doPrintfLoop, doDirective, scanFlags, printArg, Directive.plain, finish]

/-- Rendering of the template `"bad: %d"` with the operand 5 behind the
timestamp prefix. -/
theorem sprintf_bad_five (ext : PrintExt) (ts : String) :
    Sprintf ext ("%s - " ++ "bad: %d") [.str ts, .int 5] = ts ++ " - bad: 5" := by
  apply String.ext
  simp [Sprintf, doPrintfLoop, doDirective, scanFlags, printArg, Directive.plain, finish]
  rfl

/-! ## Levels -/

/-- C5: `GetLevel()` called right after `SetLevel(X)` returns `X`, for every
value `X` of the level type, and a `GetLevel` call leaves the whole state as
it was. -/
theorem getLevel_after_setLevel (env : Env) (X : Level) (st : State) :
    GetLevel (SetLevel X st) = X ∧ step env Op.getLevel st = ⟨st, .ret ()⟩ :=
  ⟨rfl, rfl⟩

/-- C6: the levels are ordered Debug < Info < Warn < Error < Panic < Fatal;
`SetLevel(L)` keeps the logger and its handle (no rebuild, no backend call);
and right after it each of `Debugf`, `Infof`, `Warnf`, `Errorf` writes exactly
one line, at its own severity, when that severity is at least `L`, and writes
nothing otherwise. -/
theorem level_gate (env : Env) (now : Time) (format : String) (args : List Value)
    (st : State) (sg : SugaredLogger) (L : Level) (h : st.sugar = some sg) :
    (DebugLevel < InfoLevel ∧ InfoLevel < WarnLevel ∧ WarnLevel < ErrorLevel ∧
      ErrorLevel < PanicLevel ∧ PanicLevel < FatalLevel) ∧
    ((SetLevel L st).logger = st.logger ∧ (SetLevel L st).sugar = st.sugar ∧
      (SetLevel L st).trace = st.trace ∧ (SetLevel L st).out = st.out) ∧
    (Debugf env now format args (SetLevel L st)).st.out =
      st.out ++ (if DebugLevel ≥ L then
        [⟨sg.base, DebugLevel,
          getMessage env.printExt ("%s - " ++ format) (timestamp now :: args)⟩] else []) ∧
    (Infof env now format args (SetLevel L st)).st.out =
      st.out ++ (if InfoLevel ≥ L then
        [⟨sg.base, InfoLevel,
          getMessage env.printExt ("%s - " ++ format) (timestamp now :: args)⟩] else []) ∧
    (Warnf env now format args (SetLevel L st)).st.out =
      st.out ++ (if WarnLevel ≥ L then
        [⟨sg.base, WarnLevel,
          getMessage env.printExt ("%s - " ++ format) (timestamp now :: args)⟩] else []) ∧
    (Errorf env now format args (SetLevel L st)).st.out =
      st.out ++ (if ErrorLevel ≥ L then
        [⟨sg.base, ErrorLevel,
          getMessage env.printExt ("%s - " ++ format) (timestamp now :: args)⟩] else []) := by
  refine ⟨by decide, ⟨rfl, rfl, rfl, rfl⟩, ?_, ?_, ?_, ?_⟩ <;>
    simp only [Debugf, Infof, Warnf, Errorf, sugarLogf, SetLevel, h, backendLog_frame,
      ge_iff_le, List.singleton_append] <;>
    split_ifs <;> simp

/-- Witness of C6 at `SetLevel(Warn)` on the initial state: `Debugf` and
`Infof` write nothing, `Warnf` and `Errorf` write one line each. -/
theorem level_gate_witness :
    (Debugf exampleEnv exampleTime "n=%d" [.int 1] (SetLevel WarnLevel exampleState)).st.out = [] ∧
    (Infof exampleEnv exampleTime "n=%d" [.int 1] (SetLevel WarnLevel exampleState)).st.out = [] ∧
    (Warnf exampleEnv exampleTime "n=%d" [.int 1] (SetLevel WarnLevel exampleState)).st.out =
      [⟨⟨["stderr"], ["stderr"]⟩, WarnLevel, "2024-03-07 09:05:01.023 - n=1"⟩] ∧
    (Errorf exampleEnv exampleTime "n=%d" [.int 1] (SetLevel WarnLevel exampleState)).st.out =
      [⟨⟨["stderr"], ["stderr"]⟩, ErrorLevel, "2024-03-07 09:05:01.023 - n=1"⟩] := by
  have h := level_gate exampleEnv exampleTime "n=%d" [.int 1] exampleState
    ⟨⟨["stderr"], ["stderr"]⟩⟩ WarnLevel (by decide)
  refine ⟨h.2.2.1.trans (by decide), h.2.2.2.1.trans (by decide), h.2.2.2.2.1.trans (by decide),
    h.2.2.2.2.2.trans (by decide)⟩

/-- C10: if package initialisation returns the state `st0` and a finite
sequence of calls run from `st0` returns with state `stN`, then in `stN` the
level `GetLevel()` returns equals the live threshold of the configuration, and
both equal the argument of the last `SetLevel` of the sequence, or Debug if
there is none; and whatever the state, `SetOutput` and `ParseLevel` change
neither of the two levels. -/
theorem level_invariant (env : Env) (ops : List Op) (st0 stN : State)
    (h0 : init env = ⟨st0, .ret ()⟩) (h : run env ops st0 = ⟨stN, .ret ()⟩) :
    GetLevel stN = stN.cfg.level ∧
    GetLevel stN = lastSetLevel ops DebugLevel ∧
    (∀ (d : List String) (st : State),
      GetLevel (SetOutput env d st).st = GetLevel st ∧
      (SetOutput env d st).st.cfg.level = st.cfg.level) ∧
    (∀ (now : Time) (s : String) (st : State),
      GetLevel (ParseLevel env now s st).st = GetLevel st ∧
      (ParseLevel env now s st).st.cfg.level = st.cfg.level) := by
  have hi : st0.currentLevel = DebugLevel ∧ st0.cfg.level = DebugLevel := by
    have hr := rebuild_levels env
      { zeroState with
        currentLevel := DebugLevel
        cfg := ⟨DebugLevel, ["stderr"], ["stderr"], "console", "message", "level", "lowercase",
          "ISO8601TimeEncoder"⟩ }
    have hst : (init env).st = st0 := by rw [h0]
    unfold init at hst
    simp only at hst
    rw [← hst]
    exact ⟨hr.2, by rw [hr.1]⟩
  have hr := run_levels env ops st0 stN h
  refine ⟨?_, ?_, ?_, ?_⟩
  · unfold GetLevel; rw [hr.1, hr.2, hi.1, hi.2]
  · unfold GetLevel; rw [hr.1, hi.1]
  · intro d st
    have h1 := rebuild_levels env { st with cfg := { st.cfg with outputPaths := d } }
    exact ⟨h1.2, by simp [SetOutput, h1.1]⟩
  · intro now s st
    have h1 := parseLevel_levels env now s st
    exact ⟨h1.2, by rw [h1.1]⟩

/-- Witness of C10: a run from the initial state through two level changes,
an output change, a level-name parse with an unknown name, and log calls. -/
theorem level_invariant_witness :
    GetLevel (run exampleEnv
      [.setLevel WarnLevel, .infof exampleTime "x" [], .setOutput ["app.log"],
        .setLevel ErrorLevel, .parseLevel exampleTime "verbose", .getLevel,
        .traceError "stack" exampleTime exampleTime "bad: %d" [.int 5]] exampleState).st
      = ErrorLevel ∧
    (run exampleEnv
      [.setLevel WarnLevel, .infof exampleTime "x" [], .setOutput ["app.log"],
        .setLevel ErrorLevel, .parseLevel exampleTime "verbose", .getLevel,
        .traceError "stack" exampleTime exampleTime "bad: %d" [.int 5]] exampleState).st.cfg.level
      = ErrorLevel := by
  have h := level_invariant exampleEnv
    [.setLevel WarnLevel, .infof exampleTime "x" [], .setOutput ["app.log"],
      .setLevel ErrorLevel, .parseLevel exampleTime "verbose", .getLevel,
      .traceError "stack" exampleTime exampleTime "bad: %d" [.int 5]]
    exampleState _ (by decide) rfl
  exact ⟨h.2.1.trans (by decide), (h.1.symm.trans h.2.1).trans (by decide)⟩

/-! ## Output destinations and the logger rebuild -/

/-- C4, as stated, fails: after a successful `SetOutput(["app.log"])` on the
initial state the destinations for normal output are `["app.log"]` but the
destinations for error output are still `["stderr"]`. -/
theorem setOutput_errorOutput_unchanged_example :
    (SetOutput exampleEnv ["app.log"] exampleState).ctl = .ret () ∧
    (SetOutput exampleEnv ["app.log"] exampleState).st.cfg.outputPaths = ["app.log"] ∧
    (SetOutput exampleEnv ["app.log"] exampleState).st.cfg.errorOutputPaths = ["stderr"] ∧
    (SetOutput exampleEnv ["app.log"] exampleState).st.cfg.errorOutputPaths ≠ ["app.log"] := by
  decide

/-- C4, amended: however `SetOutput(d)` ends, the configured destinations for
normal output are `d` and the configured destinations for error output are
what they were before the call. -/
theorem setOutput_paths (env : Env) (d : List String) (st : State) :
    (SetOutput env d st).st.cfg.outputPaths = d ∧
    (SetOutput env d st).st.cfg.errorOutputPaths = st.cfg.errorOutputPaths := by
  unfold SetOutput rebuildLoggerFromCfg
  cases hb : env.build { st.cfg with outputPaths := d } with
  | error err => simp
  | ok lg => cases hl : st.logger <;> simp [hl, setSugar]

/-- C8: `SetOutput(d)` panics exactly when the backend cannot build a logger
from the configuration with destinations `d`, and then panics with the
backend's error, leaving the logger, its handle and the record of backend
calls untouched; when the build succeeds the call returns, the previous logger
(if there was one) has been synced exactly once, and the logger and its handle
are the newly built logger and its sugar. -/
theorem setOutput_rebuild (env : Env) (d : List String) (st : State) :
    ((∃ v, (SetOutput env d st).ctl = .panic v) ↔
      ∃ err, env.build { st.cfg with outputPaths := d } = .error err) ∧
    (∀ err, env.build { st.cfg with outputPaths := d } = .error err →
      (SetOutput env d st).ctl = .panic err ∧
      (SetOutput env d st).st.logger = st.logger ∧
      (SetOutput env d st).st.sugar = st.sugar ∧
      (SetOutput env d st).st.trace = st.trace) ∧
    (∀ lg, env.build { st.cfg with outputPaths := d } = .ok lg →
      (SetOutput env d st).ctl = .ret () ∧
      (SetOutput env d st).st.logger = some lg ∧
      (SetOutput env d st).st.sugar = some lg.Sugar ∧
      (SetOutput env d st).st.trace =
        st.trace ++ (match st.logger with
          | some old => [BackendCall.sync old]
          | none => [])) := by
  unfold SetOutput rebuildLoggerFromCfg
  cases hb : env.build { st.cfg with outputPaths := d } with
  | error err => simp
  | ok lg => cases hl : st.logger <;> simp [hl, setSugar]

/-- Instances of C8 on the initial state: the empty path cannot be opened,
so `SetOutput([""])` panics with the backend's error and the logger is the
one from initialisation, not synced; `SetOutput(["app.log"])` returns, the
logger from initialisation has been synced once and the new logger writes to
`app.log`. -/
theorem setOutput_rebuild_witness :
    ((SetOutput exampleEnv [""] exampleState).ctl = .panic "open : no such file or directory" ∧
      (SetOutput exampleEnv [""] exampleState).st.logger = some ⟨["stderr"], ["stderr"]⟩ ∧
      (SetOutput exampleEnv [""] exampleState).st.trace = []) ∧
    ((SetOutput exampleEnv ["app.log"] exampleState).ctl = .ret () ∧
      (SetOutput exampleEnv ["app.log"] exampleState).st.logger = some ⟨["app.log"], ["stderr"]⟩ ∧
      (SetOutput exampleEnv ["app.log"] exampleState).st.sugar =
        some ⟨⟨["app.log"], ["stderr"]⟩⟩ ∧
      (SetOutput exampleEnv ["app.log"] exampleState).st.trace =
        [.sync ⟨["stderr"], ["stderr"]⟩]) := by
  have hf := (setOutput_rebuild exampleEnv [""] exampleState).2.1
    "open : no such file or directory" rfl
  have hs := (setOutput_rebuild exampleEnv ["app.log"] exampleState).2.2
    ⟨["app.log"], ["stderr"]⟩ rfl
  exact ⟨⟨hf.1, hf.2.1.trans (by decide), hf.2.2.2.trans (by decide)⟩,
    ⟨hs.1, hs.2.1, hs.2.2.1, hs.2.2.2.trans (by decide)⟩⟩

/-! ## Unstructured calls -/

/-- C9: with a handle in place, each of `Error`, `Panic` and `Fatal` hands
the backend's concatenation-style call of its own severity exactly the value
list made of the timestamp, the separator `" - "` and then the caller's values
unchanged. -/
theorem unstructured_forward (env : Env) (now : Time) (args : List Value) (st : State)
    (sg : SugaredLogger) (h : st.sugar = some sg) :
    (Error env now args st).st.trace =
      st.trace ++ [.log sg ErrorLevel (timestamp now :: .str " - " :: args)] ∧
    (Panic env now args st).st.trace =
      st.trace ++ [.log sg PanicLevel (timestamp now :: .str " - " :: args)] ∧
    (Fatal env now args st).st.trace =
      st.trace ++ [.log sg FatalLevel (timestamp now :: .str " - " :: args)] := by
  simp [Error, Panic, Fatal, sugarLog, h, backendLog_frame]

/-- Witness of C9 on the initial state with two caller values. -/
theorem unstructured_forward_witness :
    (Error exampleEnv exampleTime [.str "a", .int 7] exampleState).st.trace =
      exampleState.trace ++ [.log ⟨⟨["stderr"], ["stderr"]⟩⟩ ErrorLevel
        (timestamp exampleTime :: .str " - " :: [.str "a", .int 7])] ∧
    (Panic exampleEnv exampleTime [.str "a", .int 7] exampleState).st.trace =
      exampleState.trace ++ [.log ⟨⟨["stderr"], ["stderr"]⟩⟩ PanicLevel
        (timestamp exampleTime :: .str " - " :: [.str "a", .int 7])] ∧
    (Fatal exampleEnv exampleTime [.str "a", .int 7] exampleState).st.trace =
      exampleState.trace ++ [.log ⟨⟨["stderr"], ["stderr"]⟩⟩ FatalLevel
        (timestamp exampleTime :: .str " - " :: [.str "a", .int 7])] :=
  unstructured_forward exampleEnv exampleTime [.str "a", .int 7] exampleState
    ⟨⟨["stderr"], ["stderr"]⟩⟩ (by decide)

/-! ## Level names -/

/-- Lower-casing fixes each lower-case ASCII letter and maps its upper-case
form to it, whatever the tables say outside ASCII. -/
theorem toLowerRune_letter (u : Char → Char) (d : Char)
    (hd : d ∈ "abcdefghijklmnopqrstuvwxyz".data) :
    toLowerRune u d = d ∧ toLowerRune u d.toUpper = d := by
  simp only [List.mem_cons, List.mem_singleton, List.not_mem_nil, or_false] at hd
  rcases hd with h | h | h | h | h | h | h | h | h | h | h | h | h | h | h | h | h | h | h | h
    | h | h | h | h | h | h <;> subst h <;> exact ⟨rfl, rfl⟩

/-- Lower-casing a mixed-case spelling of a lower-case ASCII word gives the
word. -/
theorem map_toLowerRune_of_variant (u : Char → Char) :
    ∀ (cs ds : List Char), (∀ d ∈ ds, d ∈ "abcdefghijklmnopqrstuvwxyz".data) →
      caseVariantChars cs ds = true → cs.map (toLowerRune u) = ds := by
  intro cs
  induction cs with
  | nil =>
    intro ds _ h
    cases ds with
    | nil => rfl
    | cons d ds => simp [caseVariantChars] at h
  | cons c cs ih =>
    intro ds hds h
    cases ds with
    | nil => simp [caseVariantChars] at h
    | cons d ds =>
      simp only [caseVariantChars, Bool.and_eq_true, Bool.or_eq_true, beq_iff_eq] at h
      have hl := toLowerRune_letter u d (hds d (List.mem_cons_self d ds))
      have ht := ih ds (fun x hx => hds x (List.mem_cons_of_mem d hx)) h.2
      rw [List.map_cons, ht]
      rcases h.1 with hc | hc
      · rw [hc, hl.1]
      · rw [hc, hl.2]

/-- Every recognised level name is a word of lower-case ASCII letters. -/
theorem levelNames_letters :
    ∀ p ∈ levelNames, ∀ d ∈ p.1.data, d ∈ "abcdefghijklmnopqrstuvwxyz".data := by
  decide

/-- C1: for every string `s` that is an upper/lower-case combination of one
of the names debug, info, warn, warning, error, panic, fatal, `ParseLevel(s)`
returns the level listed for that name and leaves the state as it was: no call
is made on the backend and no line is written. -/
theorem parseLevel_valid (env : Env) (now : Time) (s : String) (st : State)
    (name : String) (lvl : Level) (hn : (name, lvl) ∈ levelNames)
    (hv : caseVariant s name = true) :
    ParseLevel env now s st = ⟨st, .ret lvl⟩ := by
  have hl : ToLower env.unicodeToLower s = name := by
    unfold ToLower
    rw [map_toLowerRune_of_variant env.unicodeToLower s.data name.data
      (levelNames_letters (name, lvl) hn) hv]
  unfold ParseLevel
  rw [hl]
  simp only [levelNames, List.mem_cons, List.mem_singleton, List.not_mem_nil, or_false,
    Prod.mk.injEq] at hn
  rcases hn with ⟨h1, h2⟩ | ⟨h1, h2⟩ | ⟨h1, h2⟩ | ⟨h1, h2⟩ | ⟨h1, h2⟩ | ⟨h1, h2⟩ | ⟨h1, h2⟩ <;>
    subst h1 <;> subst h2 <;> rfl

/-- Witness of C1: `"WaRnInG"` parses to Warn on the initial state. -/
theorem parseLevel_valid_witness :
    ParseLevel exampleEnv exampleTime "WaRnInG" exampleState = ⟨exampleState, .ret WarnLevel⟩ :=
  parseLevel_valid exampleEnv exampleTime "WaRnInG" exampleState "warning" WarnLevel
    (by decide) (by decide)

/-- C2, as stated, fails: with the threshold at Fatal, `ParseLevel("verbose")`
(an unrecognised name) returns Debug and makes its one Error-level call on the
backend, but no line is written. -/
theorem parseLevel_unknown_suppressed_example :
    recognized exampleEnv.unicodeToLower "verbose" = false ∧
    (ParseLevel exampleEnv exampleTime "verbose" (SetLevel FatalLevel exampleState)).ctl
      = .ret DebugLevel ∧
    (ParseLevel exampleEnv exampleTime "verbose" (SetLevel FatalLevel exampleState)).st.trace
      = [.logf ⟨⟨["stderr"], ["stderr"]⟩⟩ ErrorLevel "%s - ParseLevel: unknown level: %s"
          [.str "2024-03-07 09:05:01.023", .str "verbose"]] ∧
    (ParseLevel exampleEnv exampleTime "verbose" (SetLevel FatalLevel exampleState)).st.out
      = [] := by
  decide

/-- C2, amended: for every string `s` whose lower-casing is none of the
recognised names and every threshold, `ParseLevel(s)` returns Debug and makes
exactly one call on the backend, a formatted Error-level call whose message is
the timestamp, then `" - ParseLevel: unknown level: "`, then `s` verbatim;
the backend writes that message as one Error-level line when the threshold is
at or below Error, and writes nothing when the threshold is above Error. -/
theorem parseLevel_unknown (env : Env) (now : Time) (s : String) (st : State)
    (sg : SugaredLogger) (hs : recognized env.unicodeToLower s = false)
    (h : st.sugar = some sg) :
    (ParseLevel env now s st).ctl = .ret DebugLevel ∧
    (ParseLevel env now s st).st.trace =
      st.trace ++ [.logf sg ErrorLevel "%s - ParseLevel: unknown level: %s"
        [timestamp now, .str s]] ∧
    getMessage env.printExt "%s - ParseLevel: unknown level: %s" [timestamp now, .str s] =
      formatTimestamp now ++ " - ParseLevel: unknown level: " ++ s ∧
    (ParseLevel env now s st).st.out =
      st.out ++ (if st.cfg.level ≤ ErrorLevel then
        [⟨sg.base, ErrorLevel, formatTimestamp now ++ " - ParseLevel: unknown level: " ++ s⟩]
        else []) := by
  have hm : getMessage env.printExt ("%s - " ++ "ParseLevel: unknown level: %s")
      [timestamp now, .str s] = formatTimestamp now ++ " - ParseLevel: unknown level: " ++ s := by
    rw [getMessage_prefixed]
    exact sprintf_unknown_level env.printExt (formatTimestamp now) s
  simp only [recognized, levelNames, List.any_cons, List.any_nil, Bool.or_false,
    Bool.or_eq_false_iff, beq_eq_false_iff_ne, ne_eq] at hs
  obtain ⟨h1, h2, h3, h4, h5, h6, h7⟩ := hs
  have hval : ParseLevel env now s st =
      (Errorf env now "ParseLevel: unknown level: %s" [.str s] st).andThen
        (fun _ st1 => ⟨st1, .ret DebugLevel⟩) := by
    unfold ParseLevel
    simp only [h1, h2, h3, h4, h5, h6, h7, or_self, if_false]
  have hctl : (Errorf env now "ParseLevel: unknown level: %s" [.str s] st).ctl = .ret () := by
    simp only [Errorf, sugarLogf, h, backendLog]
    rw [if_neg (by decide), if_neg (by decide)]
  have hst : (Errorf env now "ParseLevel: unknown level: %s" [.str s] st).st =
      { st with
        trace := st.trace ++ [.logf sg ErrorLevel ("%s - " ++ "ParseLevel: unknown level: %s")
          ([timestamp now] ++ [.str s])]
        out := if st.cfg.level ≤ ErrorLevel then
            st.out ++ [⟨sg.base, ErrorLevel,
              getMessage env.printExt ("%s - " ++ "ParseLevel: unknown level: %s")
                ([timestamp now] ++ [.str s])⟩]
          else st.out } := by
    simp only [Errorf, sugarLogf, h, backendLog_frame]
  refine ⟨?_, ?_, hm, ?_⟩
  · rw [hval]; simp only [Outcome.andThen, hctl]
  · rw [hval, andThen_st, hctl]; simp only [hst]; rfl
  · rw [hval, andThen_st, hctl]
    simp only [hst]
    split_ifs
    · exact congrArg (fun m => st.out ++ [LogLine.mk sg.base ErrorLevel m]) hm
    · simp

/-- Witness of C2, amended: `"verbose"` on the initial state (threshold
Debug), where the line is written. -/
theorem parseLevel_unknown_witness :
    (ParseLevel exampleEnv exampleTime "verbose" exampleState).ctl = .ret DebugLevel ∧
    (ParseLevel exampleEnv exampleTime "verbose" exampleState).st.out =
      [⟨⟨["stderr"], ["stderr"]⟩, ErrorLevel,
        "2024-03-07 09:05:01.023 - ParseLevel: unknown level: verbose"⟩] := by
  have h := parseLevel_unknown exampleEnv exampleTime "verbose" exampleState
    ⟨⟨["stderr"], ["stderr"]⟩⟩ (by decide) (by decide)
  exact ⟨h.1, h.2.2.2.trans (by decide)⟩

/-! ## TraceError -/

/-- C7, as stated, fails: with the threshold at Fatal,
`TraceError("bad: %d", 5)` makes its two Error-level calls on the backend and
returns, but no line is written. -/
theorem traceError_suppressed_example :
    (TraceError exampleEnv "goroutine 1 [running]:" exampleTime exampleTime "bad: %d" [.int 5]
      (SetLevel FatalLevel exampleState)).ctl = .ret () ∧
    (TraceError exampleEnv "goroutine 1 [running]:" exampleTime exampleTime "bad: %d" [.int 5]
      (SetLevel FatalLevel exampleState)).st.trace.length = 2 ∧
    (TraceError exampleEnv "goroutine 1 [running]:" exampleTime exampleTime "bad: %d" [.int 5]
      (SetLevel FatalLevel exampleState)).st.out = [] := by
  decide

/-- C7, amended: for every template, operand list and threshold,
`TraceError(format, args...)` returns after exactly two calls on the backend,
both at Error severity and in this order: a concatenation-style call with the
timestamp, `" - "` and the stack trace, then the formatted call for
`(format, args)`.  When the threshold is at or below Error the backend writes
exactly two Error-level lines in that order, the first being the timestamp,
`" - "` and the stack trace, the second the rendering of the formatted call
(for `("bad: %d", 5)` it is the timestamp followed by `" - bad: 5"`); when the
threshold is above Error it writes nothing. -/
theorem traceError_lines (env : Env) (stack : String) (now1 now2 : Time) (format : String)
    (args : List Value) (st : State) (sg : SugaredLogger) (h : st.sugar = some sg) :
    (TraceError env stack now1 now2 format args st).ctl = .ret () ∧
    (TraceError env stack now1 now2 format args st).st.trace =
      st.trace ++ [.log sg ErrorLevel [timestamp now1, .str " - ", .str stack],
        .logf sg ErrorLevel ("%s - " ++ format) (timestamp now2 :: args)] ∧
    (TraceError env stack now1 now2 format args st).st.out =
      st.out ++ (if st.cfg.level ≤ ErrorLevel then
        [⟨sg.base, ErrorLevel, formatTimestamp now1 ++ " - " ++ stack⟩,
          ⟨sg.base, ErrorLevel,
            getMessage env.printExt ("%s - " ++ format) (timestamp now2 :: args)⟩]
        else []) ∧
    getMessage env.printExt ("%s - " ++ "bad: %d") [timestamp now2, .int 5] =
      formatTimestamp now2 ++ " - bad: 5" := by
  have hm1 : getMessage env.printExt "" [timestamp now1, .str " - ", .str stack] =
      formatTimestamp now1 ++ " - " ++ stack :=
    getMessage_three_strings env.printExt (formatTimestamp now1) " - " stack
  have hc1 : (Error env now1 [.str stack] st).ctl = .ret () := by
    simp only [Error, sugarLog, h, backendLog]
    rw [if_neg (by decide), if_neg (by decide)]
  have hs1 : (Error env now1 [.str stack] st).st =
      { st with
        trace := st.trace ++ [.log sg ErrorLevel [timestamp now1, .str " - ", .str stack]]
        out := if st.cfg.level ≤ ErrorLevel then
            st.out ++ [⟨sg.base, ErrorLevel, formatTimestamp now1 ++ " - " ++ stack⟩]
          else st.out } := by
    simp only [Error, sugarLog, h, backendLog_frame, List.cons_append, List.nil_append, hm1]
  have hval : TraceError env stack now1 now2 format args st =
      Errorf env now2 format args (Error env now1 [.str stack] st).st := by
    simp only [TraceError, Outcome.andThen, hc1]
  have hsg : (Error env now1 [.str stack] st).st.sugar = some sg := by rw [hs1]; exact h
  refine ⟨?_, ?_, ?_, ?_⟩
  · rw [hval]
    simp only [Errorf, sugarLogf, hsg, backendLog]
    rw [if_neg (by decide), if_neg (by decide)]
  · rw [hval]
    simp only [Errorf, sugarLogf, hsg, backendLog_frame]
    simp [hs1]
  · rw [hval]
    simp only [Errorf, sugarLogf, hsg, backendLog_frame]
    simp only [hs1]
    split_ifs <;> simp
  · rw [getMessage_prefixed]
    exact sprintf_bad_five env.printExt (formatTimestamp now2)

/-- Witness of C7, amended: `TraceError("bad: %d", 5)` on the initial state
(threshold Debug) writes the stack line and then the line ending in
`"bad: 5"`. -/
theorem traceError_lines_witness :
    (TraceError exampleEnv "goroutine 1 [running]:" exampleTime exampleTime "bad: %d" [.int 5]
      exampleState).st.out =
      [⟨⟨["stderr"], ["stderr"]⟩, ErrorLevel, "2024-03-07 09:05:01.023 - goroutine 1 [running]:"⟩,
        ⟨⟨["stderr"], ["stderr"]⟩, ErrorLevel, "2024-03-07 09:05:01.023 - bad: 5"⟩] :=
  (traceError_lines exampleEnv "goroutine 1 [running]:" exampleTime exampleTime "bad: %d"
    [.int 5] exampleState ⟨⟨["stderr"], ["stderr"]⟩⟩ (by decide)).2.2.1.trans (by decide)

/-! ## Formatted calls -/

/-- With a handle in place and a template without explicit argument indexes,
each of the six formatted functions hands the backend, at its own severity,
the template behind `"%s - "` with the timestamp ahead of the operands, and
the message the backend renders from it is the timestamp, `" - "`, and the
rendering of the caller's template with the caller's operands. -/
theorem formatted_message_without_index (env : Env) (now : Time) (format : String)
    (args : List Value) (st : State) (sg : SugaredLogger) (h : st.sugar = some sg)
    (hf : '[' ∉ format.data) :
    (Debugf env now format args st).st.trace =
      st.trace ++ [.logf sg DebugLevel ("%s - " ++ format) (timestamp now :: args)] ∧
    (Infof env now format args st).st.trace =
      st.trace ++ [.logf sg InfoLevel ("%s - " ++ format) (timestamp now :: args)] ∧
    (Warnf env now format args st).st.trace =
      st.trace ++ [.logf sg WarnLevel ("%s - " ++ format) (timestamp now :: args)] ∧
    (Errorf env now format args st).st.trace =
      st.trace ++ [.logf sg ErrorLevel ("%s - " ++ format) (timestamp now :: args)] ∧
    (Panicf env now format args st).st.trace =
      st.trace ++ [.logf sg PanicLevel ("%s - " ++ format) (timestamp now :: args)] ∧
    (Fatalf env now format args st).st.trace =
      st.trace ++ [.logf sg FatalLevel ("%s - " ++ format) (timestamp now :: args)] ∧
    getMessage env.printExt ("%s - " ++ format) (timestamp now :: args) =
      formatTimestamp now ++ " - " ++ Sprintf env.printExt format args := by
  refine ⟨?_, ?_, ?_, ?_, ?_, ?_, ?_⟩
  · simp [Debugf, sugarLogf, h, backendLog_frame]
  · simp [Infof, sugarLogf, h, backendLog_frame]
  · simp [Warnf, sugarLogf, h, backendLog_frame]
  · simp [Errorf, sugarLogf, h, backendLog_frame]
  · simp [Panicf, sugarLogf, h, backendLog_frame]
  · simp [Fatalf, sugarLogf, h, backendLog_frame]
  · rw [getMessage_prefixed]
    exact sprintf_prefixed env.printExt (formatTimestamp now) format args hf

/-- The previous statement at the template `"%d items, %s"` with two operands
and at the empty operand list. -/
theorem formatted_message_without_index_witness :
    getMessage exampleEnv.printExt ("%s - " ++ "%d items, %s") [timestamp exampleTime, .int 3, .str "ok"] =
      "2024-03-07 09:05:01.023 - 3 items, ok" ∧
    getMessage exampleEnv.printExt ("%s - " ++ "100%") [timestamp exampleTime] =
      "2024-03-07 09:05:01.023 - 100%!(NOVERB)" := by
  have h1 := formatted_message_without_index exampleEnv exampleTime "%d items, %s"
    [.int 3, .str "ok"] exampleState ⟨⟨["stderr"], ["stderr"]⟩⟩ (by decide) (by decide)
  have h2 := formatted_message_without_index exampleEnv exampleTime "100%"
    [] exampleState ⟨⟨["stderr"], ["stderr"]⟩⟩ (by decide) (by decide)
  exact ⟨h1.2.2.2.2.2.2.trans (by decide), h2.2.2.2.2.2.2.trans (by decide)⟩

/-- C3 at the template `"%[1]d"` with the operand 5: each of the six
formatted functions hands the backend, at its own severity, the template
`"%s - %[1]d"` with the timestamp ahead of the operand; the backend renders it
with index 1 naming the timestamp, so the message is the timestamp, `" - "`
and `%!d(string=<timestamp>)`, whereas the template and operand alone render
to `"5"`. -/
theorem formatted_explicit_index_example :
    (Debugf exampleEnv exampleTime "%[1]d" [.int 5] exampleState).st.trace =
      [.logf ⟨⟨["stderr"], ["stderr"]⟩⟩ DebugLevel "%s - %[1]d"
        [.str "2024-03-07 09:05:01.023", .int 5]] ∧
    (Infof exampleEnv exampleTime "%[1]d" [.int 5] exampleState).st.trace =
      [.logf ⟨⟨["stderr"], ["stderr"]⟩⟩ InfoLevel "%s - %[1]d"
        [.str "2024-03-07 09:05:01.023", .int 5]] ∧
    (Warnf exampleEnv exampleTime "%[1]d" [.int 5] exampleState).st.trace =
      [.logf ⟨⟨["stderr"], ["stderr"]⟩⟩ WarnLevel "%s - %[1]d"
        [.str "2024-03-07 09:05:01.023", .int 5]] ∧
    (Errorf exampleEnv exampleTime "%[1]d" [.int 5] exampleState).st.trace =
      [.logf ⟨⟨["stderr"], ["stderr"]⟩⟩ ErrorLevel "%s - %[1]d"
        [.str "2024-03-07 09:05:01.023", .int 5]] ∧
    (Panicf exampleEnv exampleTime "%[1]d" [.int 5] exampleState).st.trace =
      [.logf ⟨⟨["stderr"], ["stderr"]⟩⟩ PanicLevel "%s - %[1]d"
        [.str "2024-03-07 09:05:01.023", .int 5]] ∧
    (Fatalf exampleEnv exampleTime "%[1]d" [.int 5] exampleState).st.trace =
      [.logf ⟨⟨["stderr"], ["stderr"]⟩⟩ FatalLevel "%s - %[1]d"
        [.str "2024-03-07 09:05:01.023", .int 5]] ∧
    getMessage exampleEnv.printExt "%s - %[1]d" [.str "2024-03-07 09:05:01.023", .int 5] =
      "2024-03-07 09:05:01.023 - %!d(string=2024-03-07 09:05:01.023)" ∧
    Sprintf exampleEnv.printExt "%[1]d" [.int 5] = "5" ∧
    getMessage exampleEnv.printExt "%s - %[1]d" [.str "2024-03-07 09:05:01.023", .int 5] ≠
      formatTimestamp exampleTime ++ " - " ++ Sprintf exampleEnv.printExt "%[1]d" [.int 5] := by
  decide

end SimpleLogger
